import Mathlib

/-!
Verification development for the TrendRadar data engine.

Shallow embedding of the Python sources:
  * `src/trendradar/core/frequency.py`  (keyword rule loader and matcher)
  * `src/trendradar/core/analyzer.py`   (news weight)
  * `src/trendradar/storage/local.py`   (per-day store: save, reads, new-title detection)
  * `src/trendradar/storage/remote.py`  (remote read of the latest crawl)
  * `src/mcp_server/tools/system.py`    (trigger_crawl response assembly)

Modelling conventions:
  * Python strings are Lean `String`s; character-level work (lower-casing,
    substring tests, lexicographic comparison) happens on `String.data`
    (a `List Char`).  `str.lower()` is modelled per code point by
    `Char.toLower`, which matches Python on ASCII; the titles and rule
    words in the repository's own examples are either ASCII or characters
    that both functions leave unchanged.
  * Python dicts are association lists in insertion order; dict update
    keeps the position of an existing key, insertion appends.
  * SQLite tables are Lean lists of row structures, row ids are `Nat`
    counters mimicking sqlite rowids (starting at 1).
  * `ORDER BY` is modelled by a stable insertion sort on the query's key;
    only membership facts about the sorted list are used in the proofs.
  * Wall-clock reads and path formatting are passed in as parameters.
-/

/-! ### Character and string helpers (Python semantics) -/

/-- Python whitespace for `str.strip()`: space, tab, newline, carriage
return, vertical tab, form feed. -/
def pyIsSpace (c : Char) : Bool :=
  c.toNat == 32 || c.toNat == 9 || c.toNat == 10 || c.toNat == 13 ||
    c.toNat == 11 || c.toNat == 12

/-- `str.strip()` on a character list. -/
def pyStrip (s : List Char) : List Char :=
  ((s.dropWhile pyIsSpace).reverse.dropWhile pyIsSpace).reverse

/-- Per-character lower-casing (`str.lower()` restricted to ASCII). -/
def pyLower (s : List Char) : List Char :=
  s.map Char.toLower

/-- Python's substring test `needle in hay`. -/
def pySub (n : List Char) : List Char → Bool
  | [] => n.isEmpty
  | c :: t => n.isPrefixOf (c :: t) || pySub n t

/-- Lexicographic comparison of Python strings by code point
(`s1 < s2`). -/
def strLtB : List Char → List Char → Bool
  | [], [] => false
  | [], _ :: _ => true
  | _ :: _, [] => false
  | a :: s, b :: t =>
    if a.toNat < b.toNat then true
    else if b.toNat < a.toNat then false
    else strLtB s t

/-- `s.split("\n\n")` (Python `str.split` with a two-newline separator,
scanning left to right). -/
def splitNN : List Char → List (List Char)
  | [] => [[]]
  | '\n' :: '\n' :: t => [] :: splitNN t
  | c :: t =>
    match splitNN t with
    | [] => [[c]]
    | s :: ss => (c :: s) :: ss

/-- `s.split("\n")`. -/
def splitNl : List Char → List (List Char)
  | [] => [[]]
  | '\n' :: t => [] :: splitNl t
  | c :: t =>
    match splitNl t with
    | [] => [[c]]
    | s :: ss => (c :: s) :: ss

/-- Digits-only numeral parser (helper for `int(...)`). -/
def parseDigits : List Char → Option Nat
  | [] => none
  | l =>
    if l.all Char.isDigit then
      some (l.foldl (fun acc c => acc * 10 + (c.toNat - 48)) 0)
    else none

/-- Python `int(str)`: optional surrounding whitespace, optional sign,
then digits (digit-group underscores are not modelled; no rule line in
the repository uses them). `none` models the `ValueError` branch. -/
def pyParseInt (s : List Char) : Option Int :=
  match pyStrip s with
  | '+' :: r => (parseDigits r).map Int.ofNat
  | '-' :: r => (parseDigits r).map fun n => -(n : Int)
  | r => (parseDigits r).map Int.ofNat

/-! ### Keyword rule loader — `load_frequency_words`
(src/trendradar/core/frequency.py lines 18-129) -/

/-- One parsed word group (the dict built at frequency.py lines 120-127).
The group's own filter words are appended to the shared filter list and
are not stored in the group. -/
structure WordGroup where
  required : List String
  normal : List String
  group_key : String
  max_count : Nat
deriving DecidableEq

/-- Active section while scanning the rule file. -/
inductive RuleSection
  | wordGroups
  | globalFilter
deriving DecidableEq

/-- Accumulator for the block scan: current section, groups so far,
shared filter words so far, global filter words so far. -/
structure LoadAcc where
  sec : RuleSection
  groups : List WordGroup
  filters : List String
  globals : List String
deriving DecidableEq

/-- Token scan of one word-group block (frequency.py lines 92-112):
`@N` sets the cap when `int(N) > 0`, `!w` goes to the shared filter
list, `+w` is required, anything else is a normal word. -/
def scanGroupWords (words : List (List Char)) :
    List String × List String × List String × Nat :=
  words.foldl
    (fun acc w =>
      let (req, norm, filt, maxC) := acc
      match w with
      | '@' :: rest =>
        match pyParseInt rest with
        | some k => if 0 < k then (req, norm, filt, k.toNat) else acc
        | none => acc
      | '!' :: rest => (req, norm, filt ++ [String.mk rest], maxC)
      | '+' :: rest => (req ++ [String.mk rest], norm, filt, maxC)
      | _ => (req, norm ++ [String.mk w], filt, maxC))
    ([], [], [], 0)

/-- Process one blank-line-separated block (frequency.py lines 65-127). -/
def processBlock (acc : LoadAcc) (block : List Char) : LoadAcc :=
  let lines0 := ((splitNl block).map pyStrip).filter fun l => ¬l.isEmpty
  if lines0.isEmpty then acc
  else
    -- section marker check on the first line
    let (sec, lines) :=
      match lines0 with
      | [] => (acc.sec, lines0)
      | l0 :: rest =>
        if l0.head? = some '[' ∧ l0.getLast? = some ']' then
          let name := pyLower (l0.drop 1).dropLast |>.map Char.toUpper
          if String.mk name = "GLOBAL_FILTER" then (RuleSection.globalFilter, rest)
          else if String.mk name = "WORD_GROUPS" then (RuleSection.wordGroups, rest)
          else (acc.sec, lines0)
        else (acc.sec, lines0)
    match sec with
    | RuleSection.globalFilter =>
      let adds := (lines.filter fun l =>
          ¬(l.head? = some '!' ∨ l.head? = some '+' ∨ l.head? = some '@')).map String.mk
      { acc with sec := sec, globals := acc.globals ++ adds }
    | RuleSection.wordGroups =>
      let (req, norm, filt, maxC) := scanGroupWords lines
      let filters' := acc.filters ++ filt
      if req ≠ [] ∨ norm ≠ [] then
        let key := if norm ≠ [] then String.intercalate " " norm
          else String.intercalate " " req
        { acc with
          sec := sec
          filters := filters'
          groups := acc.groups ++ [⟨req, norm, key, maxC⟩] }
      else { acc with sec := sec, filters := filters' }

/-- Parse a whole rule file's text into
`(word groups, shared filter words, global filter words)`
(frequency.py lines 53-129). -/
def processContent (content : String) :
    List WordGroup × List String × List String :=
  let blocks := ((splitNN content.data).map pyStrip).filter fun b => ¬b.isEmpty
  let acc := blocks.foldl processBlock ⟨RuleSection.wordGroups, [], [], []⟩
  (acc.groups, acc.filters, acc.globals)

/-- Load error raised by `load_frequency_words`. -/
inductive LoadErr
  | fileNotFoundErr
deriving DecidableEq

/-- `load_frequency_words` (frequency.py lines 18-129).  File-system
access is modelled by the argument: `none` is a path whose file does not
exist, `some content` is the file's text.  A missing file raises
`FileNotFoundError` (line 51), modelled as `Except.error`. -/
def load_frequency_words (file : Option String) :
    Except LoadErr (List WordGroup × List String × List String) :=
  match file with
  | none => Except.error LoadErr.fileNotFoundErr
  | some content => Except.ok (processContent content)

/-! ### Keyword matcher — `matches_word_groups`
(src/trendradar/core/frequency.py lines 132-194) -/

/-- `matches_word_groups(title, word_groups, filter_words, global_filters)`.
The `None`/non-string coercion of the title (lines 151-152) is outside
the typed embedding; a `global_filters=None` argument behaves like `[]`
(both are falsy at line 159). -/
def matches_word_groups (title : String) (word_groups : List WordGroup)
    (filter_words : List String) (global_filters : List String) : Bool :=
  if (pyStrip title.data).isEmpty then false
  else
    let title_lower := pyLower title.data
    if global_filters.any (fun w => pySub (pyLower w.data) title_lower) then false
    else if word_groups.isEmpty then true
    else if filter_words.any (fun w => pySub (pyLower w.data) title_lower) then false
    else
      word_groups.any fun g =>
        (g.required.all fun w => pySub (pyLower w.data) title_lower) &&
        (g.normal.isEmpty || g.normal.any fun w => pySub (pyLower w.data) title_lower)

/-! ### Helper lemmas about the string primitives -/

theorem pyStrip_eq_nil_iff (s : List Char) :
    pyStrip s = [] ↔ ∀ c ∈ s, pyIsSpace c = true := by
  unfold pyStrip
  rw [List.reverse_eq_nil_iff, List.dropWhile_eq_nil_iff]
  constructor
  · intro h c hc
    have hsplit := List.takeWhile_append_dropWhile (p := pyIsSpace) (l := s)
    rcases List.mem_append.mp (hsplit ▸ hc) with h1 | h2
    · exact List.mem_takeWhile_imp h1
    · exact h c (List.mem_reverse.mpr h2)
  · intro h c hc
    exact h c ((List.dropWhile_sublist pyIsSpace).subset (List.mem_reverse.mp hc))

theorem toNat_toLower_of_upper {c : Char} (h : 65 ≤ c.toNat ∧ c.toNat ≤ 90) :
    (Char.toLower c).toNat = c.toNat + 32 := by
  have hv : (c.toNat + 32) < 55296 := by omega
  show (if c.toNat ≥ 65 ∧ c.toNat ≤ 90 then Char.ofNat (c.toNat + 32) else c).toNat =
    c.toNat + 32
  rw [if_pos ⟨h.1, h.2⟩]
  rw [Char.ofNat, dif_pos (Or.inl hv)]
  rfl

theorem pyIsSpace_toLower (c : Char) : pyIsSpace (Char.toLower c) = pyIsSpace c := by
  by_cases h : 65 ≤ c.toNat ∧ c.toNat ≤ 90
  · have h32 := toNat_toLower_of_upper h
    unfold pyIsSpace
    rw [h32]
    have hL : (c.toNat + 32 == 32 || c.toNat + 32 == 9 || c.toNat + 32 == 10 ||
        c.toNat + 32 == 13 || c.toNat + 32 == 11 || c.toNat + 32 == 12) = false := by
      simp only [Bool.or_eq_false_iff, beq_eq_false_iff_ne, ne_eq]
      omega
    have hR : (c.toNat == 32 || c.toNat == 9 || c.toNat == 10 ||
        c.toNat == 13 || c.toNat == 11 || c.toNat == 12) = false := by
      simp only [Bool.or_eq_false_iff, beq_eq_false_iff_ne, ne_eq]
      omega
    rw [hL, hR]
  · have hfix : Char.toLower c = c := by
      show (if c.toNat ≥ 65 ∧ c.toNat ≤ 90 then Char.ofNat (c.toNat + 32) else c) = c
      rw [if_neg (by omega)]
    rw [hfix]

theorem allSpace_of_pyLower_eq {s t : List Char} (h : pyLower s = pyLower t) :
    (∀ c ∈ s, pyIsSpace c = true) ↔ (∀ c ∈ t, pyIsSpace c = true) := by
  induction s generalizing t with
  | nil =>
    cases t with
    | nil => simp
    | cons b tb => simp [pyLower] at h
  | cons a ta ih =>
    cases t with
    | nil => simp [pyLower] at h
    | cons b tb =>
      simp only [pyLower, List.map_cons, List.cons.injEq] at h
      have hab : pyIsSpace a = pyIsSpace b := by
        rw [← pyIsSpace_toLower a, ← pyIsSpace_toLower b, h.1]
      have hta := ih (h.2)
      simp only [List.mem_cons]
      constructor
      · rintro hall c (rfl | hc)
        · rw [← hab]; exact hall a (Or.inl rfl)
        · exact (hta.mp fun d hd => hall d (Or.inr hd)) c hc
      · rintro hall c (rfl | hc)
        · rw [hab]; exact hall b (Or.inl rfl)
        · exact (hta.mpr fun d hd => hall d (Or.inr hd)) c hc

theorem pyStrip_isEmpty_eq_of_pyLower_eq {s t : List Char}
    (h : pyLower s = pyLower t) :
    (pyStrip s).isEmpty = (pyStrip t).isEmpty := by
  rw [Bool.eq_iff_iff]
  simp only [List.isEmpty_iff]
  rw [pyStrip_eq_nil_iff, pyStrip_eq_nil_iff]
  exact allSpace_of_pyLower_eq h

/-- Characterization of the matcher when at least one word group is
configured: the shared filter list (pooled from every group's `!` words)
is checked before any group is tried, so a filter word of any group
vetoes the title for all groups. -/
theorem matches_word_groups_eq_true_iff (title : String) (gs : List WordGroup)
    (fs gfs : List String) (hg : gs ≠ []) :
    matches_word_groups title gs fs gfs = true ↔
      ((pyStrip title.data).isEmpty = false ∧
       (∀ w ∈ gfs, pySub (pyLower w.data) (pyLower title.data) = false) ∧
       (∀ w ∈ fs, pySub (pyLower w.data) (pyLower title.data) = false) ∧
       (∃ g ∈ gs,
         (∀ w ∈ g.required, pySub (pyLower w.data) (pyLower title.data) = true) ∧
         (g.normal = [] ∨
           ∃ w ∈ g.normal, pySub (pyLower w.data) (pyLower title.data) = true))) := by
  have hgs : gs.isEmpty = false := by
    cases gs with
    | nil => exact absurd rfl hg
    | cons a t => rfl
  unfold matches_word_groups
  cases h1 : (pyStrip title.data).isEmpty with
  | true => simp [h1]
  | false =>
    cases h2 : gfs.any fun w => pySub (pyLower w.data) (pyLower title.data) with
    | true =>
      constructor
      · intro hx
        exfalso
        rw [if_neg (by simp [h1]), if_pos (by simp [h2])] at hx
        exact Bool.false_ne_true hx
      · rintro ⟨-, hgf, -, -⟩
        rcases List.any_eq_true.mp h2 with ⟨w, hw, hws⟩
        exact absurd (hgf w hw) (by simp [hws])
    | false =>
      cases h3 : fs.any fun w => pySub (pyLower w.data) (pyLower title.data) with
      | true =>
        constructor
        · intro hx
          exfalso
          rw [if_neg (by simp [h1]), if_neg (by simp [h2]), if_neg (by simp [hgs]),
            if_pos (by simp [h3])] at hx
          exact Bool.false_ne_true hx
        · rintro ⟨-, -, hff, -⟩
          rcases List.any_eq_true.mp h3 with ⟨w, hw, hws⟩
          exact absurd (hff w hw) (by simp [hws])
      | false =>
        rw [if_neg (by simp [h1]), if_neg (by simp [h2]), if_neg (by simp [hgs]),
          if_neg (by simp [h3])]
        have hgf : ∀ w ∈ gfs, pySub (pyLower w.data) (pyLower title.data) = false := by
          intro w hw
          cases hws : pySub (pyLower w.data) (pyLower title.data) with
          | false => rfl
          | true =>
            have hcon : (gfs.any fun x => pySub (pyLower x.data) (pyLower title.data)) = true :=
              List.any_eq_true.mpr ⟨w, hw, hws⟩
            rw [h2] at hcon
            exact absurd hcon Bool.false_ne_true
        have hff : ∀ w ∈ fs, pySub (pyLower w.data) (pyLower title.data) = false := by
          intro w hw
          cases hws : pySub (pyLower w.data) (pyLower title.data) with
          | false => rfl
          | true =>
            have hcon : (fs.any fun x => pySub (pyLower x.data) (pyLower title.data)) = true :=
              List.any_eq_true.mpr ⟨w, hw, hws⟩
            rw [h3] at hcon
            exact absurd hcon Bool.false_ne_true
        simp only [List.any_eq_true, Bool.and_eq_true, List.all_eq_true,
          Bool.or_eq_true, List.isEmpty_iff]
        constructor
        · rintro ⟨g, hgmem, hreq, hnorm⟩
          exact ⟨trivial, hgf, hff, g, hgmem, hreq, hnorm⟩
        · rintro ⟨-, -, -, g, hgmem, hreq, hnorm⟩
          exact ⟨g, hgmem, hreq, hnorm⟩

/-! ### Claims C3, C10, C2, C8 -/

/-- Claim C3, counterexample: loading a non-existent rules file does not
return the empty triple of lists. -/
theorem c3_counterexample :
    load_frequency_words none ≠ Except.ok ([], [], []) := by
  simp [load_frequency_words]

/-- Claim C3 (amended): for a path naming a non-existent rules file,
`load_frequency_words` raises `FileNotFoundError` (frequency.py lines
50-51, documented in its own docstring) instead of returning empty
lists. -/
theorem c3_missing_file_raises :
    load_frequency_words none = Except.error LoadErr.fileNotFoundErr := rfl

/-- Claim C10: for every configuration — including the no-rules
configuration in which matching accepts every title — a title that is
empty or consists only of whitespace is never matched:
`matches_word_groups` returns `false` (frequency.py lines 153-154). -/
theorem c10_blank_title_never_matches (title : String) (gs : List WordGroup)
    (fs gfs : List String) (h : ∀ c ∈ title.data, pyIsSpace c = true) :
    matches_word_groups title gs fs gfs = false := by
  unfold matches_word_groups
  rw [if_pos]
  rw [List.isEmpty_iff, pyStrip_eq_nil_iff]
  exact h

/-- Witness for C10 at a whitespace-only title and the no-rules
configuration (which accepts every non-blank title). -/
theorem c10_blank_title_never_matches_witness :
    matches_word_groups "  " [] [] [] = false :=
  c10_blank_title_never_matches "  " [] [] [] (by decide)

/-- Claim C2, counterexample: with the loaded rule file
`"+tesla\n!used\n\nbyd"` (group 1: required `tesla` with filter `used`;
group 2: normal `byd` with no filters of its own), the title
`"byd used car"` contains group 2's normal word and none of group 2's
own filter words, yet matching rejects it: group filters are pooled into
one shared list that is checked before any group is tried
(frequency.py lines 107-108 and 167-168), so the claim as stated fails. -/
theorem c2_counterexample :
    load_frequency_words (some "+tesla\n!used\n\nbyd") =
      Except.ok ([⟨["tesla"], [], "tesla", 0⟩, ⟨[], ["byd"], "byd", 0⟩],
        ["used"], []) ∧
    pySub (pyLower "byd".data) (pyLower "byd used car".data) = true ∧
    matches_word_groups "byd used car"
      [⟨["tesla"], [], "tesla", 0⟩, ⟨[], ["byd"], "byd", 0⟩] ["used"] [] = false := by
  refine ⟨congrArg Except.ok ?_, by decide, by decide⟩
  decide

/-- Claim C2 (amended): for every loaded rule file with at least one
word group and every title, the matcher accepts iff the title is not
blank, no global-filter word occurs in it, no filter word of ANY group
occurs in it (the `!` words of all groups are pooled into one shared
list checked before the group loop), and some group has all required
words present and (no normal words, or some normal word present).  A
group-local filter word therefore disqualifies the title for all
groups, not just its own. -/
theorem c2_shared_filters (content title : String)
    (hg : (processContent content).1 ≠ []) :
    matches_word_groups title (processContent content).1
        (processContent content).2.1 (processContent content).2.2 = true ↔
      ((pyStrip title.data).isEmpty = false ∧
       (∀ w ∈ (processContent content).2.2,
         pySub (pyLower w.data) (pyLower title.data) = false) ∧
       (∀ w ∈ (processContent content).2.1,
         pySub (pyLower w.data) (pyLower title.data) = false) ∧
       (∃ g ∈ (processContent content).1,
         (∀ w ∈ g.required, pySub (pyLower w.data) (pyLower title.data) = true) ∧
         (g.normal = [] ∨
           ∃ w ∈ g.normal, pySub (pyLower w.data) (pyLower title.data) = true))) :=
  matches_word_groups_eq_true_iff title _ _ _ hg

/-- Witness for C2 (amended) at the concrete rule file and a title free
of filter words: the matcher accepts via the characterization. -/
theorem c2_shared_filters_witness :
    matches_word_groups "byd car" (processContent "+tesla\n!used\n\nbyd").1
      (processContent "+tesla\n!used\n\nbyd").2.1
      (processContent "+tesla\n!used\n\nbyd").2.2 = true :=
  (c2_shared_filters "+tesla\n!used\n\nbyd" "byd car" (by decide)).mpr (by decide)

/-- Claim C8: the keyword-matching decision is invariant under the case
of the title — matching lowercases the title (frequency.py line 156) and
every comparison is against the lowered title, and the blank-title check
cannot distinguish case variants. -/
theorem c8_case_invariance (t t' : String) (gs : List WordGroup)
    (fs gfs : List String) (h : pyLower t.data = pyLower t'.data) :
    matches_word_groups t gs fs gfs = matches_word_groups t' gs fs gfs := by
  unfold matches_word_groups
  rw [pyStrip_isEmpty_eq_of_pyLower_eq h, h]

/-- Witness for C8: a mixed-case variant pair with a concrete rule set. -/
theorem c8_case_invariance_witness :
    matches_word_groups "TeSlA Up" [⟨["tesla"], [], "tesla", 0⟩] ["used"] [] =
      matches_word_groups "tEsLa uP" [⟨["tesla"], [], "tesla", 0⟩] ["used"] [] :=
  c8_case_invariance "TeSlA Up" "tEsLa uP" [⟨["tesla"], [], "tesla", 0⟩] ["used"] []
    (by decide)

/-! ### News weight — `calculate_news_weight`
(src/trendradar/core/analyzer.py lines 16-60) -/

/-- Weight configuration dict `{RANK_WEIGHT, FREQUENCY_WEIGHT,
HOTNESS_WEIGHT}`. -/
structure WeightConfig where
  rank_weight : ℚ
  frequency_weight : ℚ
  hotness_weight : ℚ

/-- `calculate_news_weight(title_data, rank_threshold, weight_config)`,
with `title_data["ranks"]` and `title_data["count"]` passed explicitly.
Real arithmetic is modelled exactly over `ℚ` (the source uses floats;
the claim's tolerance of 0.01 dwarfs any float rounding on these
small integer inputs). -/
def calculate_news_weight (ranks : List ℕ) (count : ℕ) (rank_threshold : ℕ)
    (cfg : WeightConfig) : ℚ :=
  if ranks.isEmpty then 0
  else
    let rank_scores : List ℚ := ranks.map fun r => 11 - ((min r 10 : ℕ) : ℚ)
    let rank_weight : ℚ := rank_scores.sum / ranks.length
    let frequency_weight : ℚ := ((min count 10 : ℕ) : ℚ) * 10
    let high_rank_count : ℕ := (ranks.filter fun r => r ≤ rank_threshold).length
    let hotness_q : ℚ := (high_rank_count : ℚ) / ranks.length
    let hotness_weight : ℚ := hotness_q * 100
    rank_weight * cfg.rank_weight + frequency_weight * cfg.frequency_weight +
      hotness_weight * cfg.hotness_weight

/-- Default weights `(0.4, 0.3, 0.3)` from the configuration. -/
def defaultWeightConfig : WeightConfig :=
  ⟨2/5, 3/10, 3/10⟩

/-- Claim C5: for every non-empty rank list the weight is
`rank_score·W_R + frequency_score·W_F + hotness_score·W_H` with
`rank_score` the mean over the ranks of `11 − min(rank, 10)`,
`frequency_score = min(count, 10) × 10`, and `hotness_score` 100 times
the fraction of ranks ≤ rank_threshold; and at `ranks=[1,1,2]`,
`count=3`, `rank_threshold=3` with the default weights the result is
within 0.01 of 42.87. -/
theorem c5_weight_formula :
    (∀ (ranks : List ℕ) (count rank_threshold : ℕ) (cfg : WeightConfig),
      ranks ≠ [] →
      calculate_news_weight ranks count rank_threshold cfg =
        ((ranks.map fun r => 11 - ((min r 10 : ℕ) : ℚ)).sum / ranks.length) *
            cfg.rank_weight +
          (((min count 10 : ℕ) : ℚ) * 10) * cfg.frequency_weight +
          ((((ranks.filter fun r => r ≤ rank_threshold).length : ℚ) /
              ranks.length) * 100) * cfg.hotness_weight) ∧
    |calculate_news_weight [1, 1, 2] 3 3 defaultWeightConfig - 4287/100| ≤ 1/100 := by
  constructor
  · intro ranks count rank_threshold cfg hne
    unfold calculate_news_weight
    rw [if_neg (by simp [List.isEmpty_iff, hne])]
  · have hval : calculate_news_weight [1, 1, 2] 3 3 defaultWeightConfig = 643/15 := by
      unfold calculate_news_weight defaultWeightConfig
      norm_num
    rw [hval]
    rw [abs_le]
    constructor <;> norm_num

/-- Witness for C5: the general formula applied at the claim's concrete
input. -/
theorem c5_weight_formula_witness :
    calculate_news_weight [1, 1, 2] 3 3 defaultWeightConfig =
      (([1, 1, 2].map fun r => 11 - ((min r 10 : ℕ) : ℚ)).sum / ([1, 1, 2] : List ℕ).length) *
          defaultWeightConfig.rank_weight +
        (((min 3 10 : ℕ) : ℚ) * 10) * defaultWeightConfig.frequency_weight +
        (((([1, 1, 2].filter fun r => r ≤ 3).length : ℚ) /
            ([1, 1, 2] : List ℕ).length) * 100) * defaultWeightConfig.hotness_weight :=
  c5_weight_formula.1 [1, 1, 2] 3 3 defaultWeightConfig (by decide)

/-! ### Data model of `storage/base.py`

`NewsItem` and `NewsData` are the dataclasses of `storage/base.py`
(not shipped under `src/`); their fields are taken from the keyword
arguments used by the constructors in `storage/local.py` /
`storage/remote.py` and from spec §3. -/

structure NewsItem where
  title : String
  source_id : String
  source_name : String
  rank : Nat
  url : String
  mobile_url : String
  crawl_time : String
  ranks : List Nat
  first_time : String
  last_time : String
  count : Nat
deriving DecidableEq

/-- One crawl batch.  The Python dicts `items` and `id_to_name` are
association lists in insertion order. -/
structure NewsData where
  date : String
  crawl_time : String
  items : List (String × List NewsItem)
  id_to_name : List (String × String)
  failed_ids : List String
deriving DecidableEq

/-! ### Association-list dictionary operations (Python dict semantics)

Python dict keys are unique, lookup finds the single entry, update keeps
the entry's position, insertion appends. -/

/-- Dict lookup. -/
def alookup {κ β : Type} [BEq κ] : List (κ × β) → κ → Option β
  | [], _ => none
  | p :: t, k => if p.1 == k then some p.2 else alookup t k

/-- Dict upsert: an existing key keeps its position and gets
`f (some old)`; a missing key appends `f none` at the end. -/
def aupsert {κ β : Type} [BEq κ] : List (κ × β) → κ → (Option β → β) →
    List (κ × β)
  | [], k, f => [(k, f none)]
  | p :: t, k, f =>
    if p.1 == k then (p.1, f (some p.2)) :: t else p :: aupsert t k f

theorem alookup_aupsert {κ β : Type} [BEq κ] [LawfulBEq κ] [DecidableEq κ]
    (d : List (κ × β)) (k k' : κ) (f : Option β → β) :
    alookup (aupsert d k f) k' =
      if k' = k then some (f (alookup d k)) else alookup d k' := by
  induction d with
  | nil =>
    by_cases hk : k' = k <;> simp [aupsert, alookup, hk]
    · exact fun hcon => hk hcon.symm
  | cons p t ih =>
    by_cases hpk : p.1 = k
    · by_cases hk : k' = k <;>
        simp [aupsert, alookup, hpk, hk, ih]
      rw [if_neg fun hcon => hk hcon.symm, if_neg fun hcon => hk hcon.symm]
    · by_cases hpk' : p.1 = k'
      · have hk : ¬k' = k := fun hcon => hpk (hpk'.trans hcon)
        simp [aupsert, alookup, hpk, hpk', hk]
      · simp [aupsert, alookup, hpk, hpk', ih]

theorem alookup_aupsert_self {κ β : Type} [BEq κ] [LawfulBEq κ] [DecidableEq κ]
    (d : List (κ × β)) (k : κ) (f : Option β → β) :
    alookup (aupsert d k f) k = some (f (alookup d k)) := by
  rw [alookup_aupsert, if_pos rfl]

theorem alookup_aupsert_ne {κ β : Type} [BEq κ] [LawfulBEq κ] [DecidableEq κ]
    (d : List (κ × β)) {k k' : κ}
    (h : k' ≠ k) (f : Option β → β) :
    alookup (aupsert d k f) k' = alookup d k' := by
  rw [alookup_aupsert, if_neg h]

/-! ### Stable sort and first-occurrence dedup (SQL `ORDER BY` / `DISTINCT`) -/

/-- Insert before the first strictly greater element (stable). -/
def insertLt {α : Type} (lt : α → α → Bool) (a : α) : List α → List α
  | [] => [a]
  | b :: t => if lt a b then a :: b :: t else b :: insertLt lt a t

/-- Stable insertion sort; models `ORDER BY` with strict comparator `lt`.
Only membership facts about the result are used in proofs. -/
def insSort {α : Type} (lt : α → α → Bool) : List α → List α
  | [] => []
  | a :: t => insertLt lt a (insSort lt t)

theorem mem_insertLt {α : Type} (lt : α → α → Bool) (a x : α) (l : List α) :
    x ∈ insertLt lt a l ↔ x = a ∨ x ∈ l := by
  induction l with
  | nil => simp [insertLt]
  | cons b t ih =>
    simp only [insertLt]
    split
    · simp
    · simp [ih]
      tauto

theorem mem_insSort {α : Type} (lt : α → α → Bool) (x : α) (l : List α) :
    x ∈ insSort lt l ↔ x ∈ l := by
  induction l with
  | nil => simp [insSort]
  | cons a t ih => simp [insSort, mem_insertLt, ih]

theorem length_insertLt {α : Type} (lt : α → α → Bool) (a : α) (l : List α) :
    (insertLt lt a l).length = l.length + 1 := by
  induction l with
  | nil => simp [insertLt]
  | cons b t ih =>
    simp only [insertLt]
    split
    · simp
    · simp [ih]

theorem length_insSort {α : Type} (lt : α → α → Bool) (l : List α) :
    (insSort lt l).length = l.length := by
  induction l with
  | nil => rfl
  | cons a t ih => simp [insSort, length_insertLt, ih]

/-- First-occurrence duplicate removal: each distinct value is kept once,
at the position of its first occurrence. -/
def dedupFirst {α : Type} [BEq α] (l : List α) : List α :=
  l.foldl (fun acc a => if acc.contains a then acc else acc ++ [a]) []

/-! ### Per-day store — schema of `storage/schema.sql` as used by
`storage/local.py`.  Row ids are the sqlite rowids (counters starting
at 1); `created_at` / `updated_at` hold the wall-clock string passed to
each operation. -/

/-- One `news_items` row. -/
structure NewsRow where
  id : Nat
  platform_id : String
  title : String
  rank : Nat
  url : String
  mobile_url : String
  first_crawl_time : String
  last_crawl_time : String
  crawl_count : Nat
  created_at : String
  updated_at : String
deriving DecidableEq

/-- One `rank_history` row. -/
structure RankHistoryRow where
  news_item_id : Nat
  rank : Nat
  crawl_time : String
  created_at : String
deriving DecidableEq

/-- One `title_changes` row. -/
structure TitleChangeRow where
  news_item_id : Nat
  old_title : String
  new_title : String
  changed_at : String
deriving DecidableEq

/-- One `crawl_records` row (`crawl_time` is UNIQUE). -/
structure CrawlRecordRow where
  id : Nat
  crawl_time : String
  total_items : Nat
  created_at : String
deriving DecidableEq

/-- One `crawl_source_status` row; `status_success = true` models
`'success'`, `false` models `'failed'`. -/
structure SourceStatusRow where
  crawl_record_id : Nat
  platform_id : String
  status_success : Bool
deriving DecidableEq

/-- The whole per-day database. `platforms` maps id to
`(name, updated_at)`. -/
structure DayStore where
  platforms : List (String × String × String)
  news_items : List NewsRow
  next_news_id : Nat
  rank_history : List RankHistoryRow
  title_changes : List TitleChangeRow
  crawl_records : List CrawlRecordRow
  next_crawl_record_id : Nat
  source_status : List SourceStatusRow
deriving DecidableEq

/-- A freshly created day store (schema applied, no rows). -/
def emptyStore : DayStore :=
  ⟨[], [], 1, [], [], [], 1, []⟩

/-! ### `save_news_data` (storage/local.py lines 113-291)

`normalize_url` lives in `trendradar/utils/url.py`, which is not part of
the sources; it is passed in as an arbitrary function `nu`, so every
theorem below holds for any URL canonicalizer.  `now` is the formatted
wall-clock string of line 128. -/

/-- Accumulator for one save: the store plus the `new_count`,
`updated_count`, `title_changed_count` counters. -/
structure SaveAcc where
  db : DayStore
  new_count : Nat
  updated_count : Nat
  title_changed_count : Nat

/-- The in-place `UPDATE news_items SET ... WHERE id = ?` of the merge
path (storage/local.py lines 183-194). -/
def mergeRowUpdate (item : NewsItem) (crawl_time now : String)
    (existingId : Nat) (r : NewsRow) : NewsRow :=
  if r.id == existingId then
    { r with
      title := item.title
      rank := item.rank
      mobile_url := item.mobile_url
      last_crawl_time := crawl_time
      crawl_count := r.crawl_count + 1
      updated_at := now }
  else r

/-- Merge path of `saveItem` (storage/local.py lines 162-195): record a
title change when the persisted title differs, append one
`rank_history` row, update the existing row in place (increment
`crawl_count`), count as updated. -/
def mergeExisting (crawl_time now : String) (acc : SaveAcc)
    (item : NewsItem) (existing : NewsRow) : SaveAcc :=
  ⟨{ acc.db with
      news_items :=
        acc.db.news_items.map (mergeRowUpdate item crawl_time now existing.id)
      rank_history :=
        acc.db.rank_history ++ [⟨existing.id, item.rank, crawl_time, now⟩]
      title_changes :=
        if existing.title ≠ item.title then
          acc.db.title_changes ++ [⟨existing.id, existing.title, item.title, now⟩]
        else acc.db.title_changes },
    acc.new_count, acc.updated_count + 1,
    if existing.title ≠ item.title then acc.title_changed_count + 1
    else acc.title_changed_count⟩

/-- Insert path of `saveItem` (storage/local.py lines 196-233): a fresh
row with `first_ = last_ = crawl_time`, `crawl_count = 1` and one
`rank_history` row; `url'` is the normalized URL ("" on the empty-URL
branch).  Counts as new. -/
def insertFresh (url' crawl_time now sid : String) (acc : SaveAcc)
    (item : NewsItem) : SaveAcc :=
  ⟨{ acc.db with
      news_items := acc.db.news_items ++
        [⟨acc.db.next_news_id, sid, item.title, item.rank, url', item.mobile_url,
          crawl_time, crawl_time, 1, now, now⟩]
      next_news_id := acc.db.next_news_id + 1
      rank_history := acc.db.rank_history ++
        [⟨acc.db.next_news_id, item.rank, crawl_time, now⟩] },
    acc.new_count + 1, acc.updated_count, acc.title_changed_count⟩

/-- Persist one incoming `NewsItem` (storage/local.py lines 149-233).
`if item.url ≠ "" then nu item.url sid else ""` is the `normalized_url`
of line 152; a non-empty normalized URL looks up the existing row by
`(url, platform_id)` and merges, everything else inserts fresh. -/
def saveItem (nu : String → String → String) (crawl_time now : String)
    (source_id : String) (acc : SaveAcc) (item : NewsItem) : SaveAcc :=
  if (if item.url ≠ "" then nu item.url source_id else "") ≠ "" then
    match acc.db.news_items.find? fun r =>
        r.url == (if item.url ≠ "" then nu item.url source_id else "") &&
          r.platform_id == source_id with
    | some existing => mergeExisting crawl_time now acc item existing
    | none =>
      insertFresh (if item.url ≠ "" then nu item.url source_id else "")
        crawl_time now source_id acc item
  else insertFresh "" crawl_time now source_id acc item

/-- `INSERT OR REPLACE INTO crawl_source_status` with primary key
`(crawl_record_id, platform_id)`. -/
def upsertSourceStatus (l : List SourceStatusRow) (recId : Nat)
    (pid : String) (success : Bool) : List SourceStatusRow :=
  (l.filter fun s => ¬(s.crawl_record_id == recId && s.platform_id == pid)) ++
    [⟨recId, pid, success⟩]

/-- The per-platform, per-item merge-or-insert loop of one save
(storage/local.py lines 146-233). -/
def saveAllItems (nu : String → String → String) (crawl_time now : String)
    (items : List (String × List NewsItem)) (acc : SaveAcc) : SaveAcc :=
  items.foldl (fun a pl => pl.2.foldl (saveItem nu crawl_time now pl.1) a) acc

/-- Success/failed source statuses for the crawl record just written
(storage/local.py lines 254-275); a failed platform is inserted into
`platforms` with `INSERT OR IGNORE` first. -/
def recordStatuses (now : String) (data : NewsData) (recId : Nat)
    (db : DayStore) : DayStore :=
  let db4 := (data.items.map fun pl => pl.1).foldl
    (fun d sid =>
      { d with source_status := upsertSourceStatus d.source_status recId sid true })
    db
  data.failed_ids.foldl
    (fun d fid =>
      let d1 := { d with
        platforms :=
          if (alookup d.platforms fid).isSome then d.platforms
          else d.platforms ++ [(fid, fid, now)] }
      { d1 with
        source_status := upsertSourceStatus d1.source_status recId fid false })
    db4

/-- Steps 3-4 of one save (storage/local.py lines 238-275): upsert the
`crawl_records` row for this crawl time (`INSERT OR REPLACE`, fresh
rowid), re-select its id, and write the source statuses. -/
def saveCrawlRecordAndStatuses (now : String) (data : NewsData)
    (acc : SaveAcc) : DayStore :=
  let recs := (acc.db.crawl_records.filter fun r =>
      r.crawl_time ≠ data.crawl_time) ++
    [⟨acc.db.next_crawl_record_id, data.crawl_time,
      acc.new_count + acc.updated_count, now⟩]
  match recs.find? fun r => r.crawl_time == data.crawl_time with
  | none =>
    { acc.db with
      crawl_records := recs
      next_crawl_record_id := acc.db.next_crawl_record_id + 1 }
  | some rec =>
    recordStatuses now data rec.id
      { acc.db with
        crawl_records := recs
        next_crawl_record_id := acc.db.next_crawl_record_id + 1 }

/-- `save_news_data(data)` (storage/local.py lines 113-291): upsert the
platforms (lines 131-138), run the per-item merge-or-insert loop
(lines 146-233), then record the crawl and its source statuses. -/
def save_news_data (nu : String → String → String) (now : String)
    (db : DayStore) (data : NewsData) : DayStore :=
  saveCrawlRecordAndStatuses now data
    (saveAllItems nu data.crawl_time now data.items
      ⟨{ db with
          platforms := data.id_to_name.foldl
            (fun ps p => aupsert ps p.1 fun _ => (p.2, now)) db.platforms },
        0, 0, 0⟩)

/-! ### Reads (storage/local.py lines 293-524, storage/remote.py
lines 618-697)

`crawl_date` models `self._format_date_folder(date)` and `now_time`
models `self._format_time_filename()`; both are timezone/path
formatting externals passed in as parameters. -/

/-- `ORDER BY n.platform_id, n.last_crawl_time` (ascending,
lexicographic on the text columns). -/
def rowLt (a b : NewsRow) : Bool :=
  strLtB a.platform_id.data b.platform_id.data ||
    (a.platform_id == b.platform_id &&
      strLtB a.last_crawl_time.data b.last_crawl_time.data)

/-- `ORDER BY news_item_id, crawl_time`. -/
def histLt (a b : RankHistoryRow) : Bool :=
  a.news_item_id < b.news_item_id ||
    (a.news_item_id == b.news_item_id &&
      strLtB a.crawl_time.data b.crawl_time.data)

/-- `SELECT crawl_time FROM crawl_records ORDER BY crawl_time DESC
LIMIT 1`. -/
def latestCrawlTime (db : DayStore) : Option String :=
  (insSort (fun a b => strLtB b.data a.data)
    (db.crawl_records.map fun r => r.crawl_time)).head?

/-- The rank-history map built at storage/local.py lines 329-342 /
459-472: iterate the id-and-time-ordered rows, start an empty bucket for
an unseen id, append a rank only if the bucket does not contain it yet. -/
def buildRankHistoryMap (entries : List RankHistoryRow) :
    List (Nat × List Nat) :=
  entries.foldl
    (fun m e =>
      aupsert m e.news_item_id fun o =>
        if (o.getD []).contains e.rank then o.getD []
        else (o.getD []) ++ [e.rank])
    []

/-- `LEFT JOIN platforms` plus the `row[3] or platform_id` fallback
(an empty joined name is falsy in Python). -/
def platformNameOf (db : DayStore) (pid : String) : String :=
  match alookup db.platforms pid with
  | some pr => if pr.1 == "" then pid else pr.1
  | none => pid

/-- The `NewsItem` assembled by the local backend
(storage/local.py lines 363-375 and 490-502): `ranks` comes from the
rank-history map, defaulting to `[rank]`. -/
def localItem (m : List (Nat × List Nat)) (row : NewsRow)
    (pname : String) : NewsItem :=
  { title := row.title
    source_id := row.platform_id
    source_name := pname
    rank := row.rank
    url := row.url
    mobile_url := row.mobile_url
    crawl_time := row.last_crawl_time
    ranks := (alookup m row.id).getD [row.rank]
    first_time := row.first_crawl_time
    last_time := row.last_crawl_time
    count := row.crawl_count }

/-- The `NewsItem` assembled by the remote backend's latest-crawl read
(storage/remote.py lines 663-675): `ranks` is the singleton current
rank; no rank-history query is made. -/
def remoteItem (row : NewsRow) (pname : String) : NewsItem :=
  { title := row.title
    source_id := row.platform_id
    source_name := pname
    rank := row.rank
    url := row.url
    mobile_url := row.mobile_url
    crawl_time := row.last_crawl_time
    ranks := [row.rank]
    first_time := row.first_crawl_time
    last_time := row.last_crawl_time
    count := row.crawl_count }

/-- The shared per-row assembly loop (grouping by platform and the
`id_to_name` dict), parameterized by how one row becomes a `NewsItem`. -/
def assembleRows (db : DayStore) (mk : NewsRow → String → NewsItem)
    (rows : List NewsRow) :
    List (String × List NewsItem) × List (String × String) :=
  rows.foldl
    (fun acc row =>
      let pname := platformNameOf db row.platform_id
      (aupsert acc.1 row.platform_id fun o => (o.getD []) ++ [mk row pname],
       aupsert acc.2 row.platform_id fun _ => pname))
    ([], [])

/-- Failed platform ids over the whole day
(storage/local.py lines 380-386, `SELECT DISTINCT` joined on
`crawl_records`). -/
def failedIdsAllDay (db : DayStore) : List String :=
  dedupFirst
    ((db.source_status.filter fun s =>
        !s.status_success &&
          db.crawl_records.any fun r => r.id == s.crawl_record_id).map
      fun s => s.platform_id)

/-- Failed platform ids of one crawl time
(storage/local.py lines 504-512 = storage/remote.py lines 677-685). -/
def failedIdsAt (db : DayStore) (t : String) : List String :=
  (db.source_status.filter fun s =>
      !s.status_success &&
        db.crawl_records.any fun r =>
          r.id == s.crawl_record_id && r.crawl_time == t).map
    fun s => s.platform_id

/-- `get_today_all_data` (storage/local.py lines 293-408).  A missing
database file and an empty `news_items` table both yield `None`
(lines 304-306 and 321-323); the model keys on the latter. -/
def get_today_all_data (db : DayStore) (crawl_date now_time : String) :
    Option NewsData :=
  let rows := insSort rowLt db.news_items
  if rows.isEmpty then none
  else
    let news_ids := rows.map fun r => r.id
    let entries := insSort histLt
      (db.rank_history.filter fun e => news_ids.contains e.news_item_id)
    let m := buildRankHistoryMap entries
    let asm := assembleRows db (localItem m) rows
    some
      { date := crawl_date
        crawl_time := (latestCrawlTime db).getD now_time
        items := asm.1
        id_to_name := asm.2
        failed_ids := failedIdsAllDay db }

/-- Local `get_latest_crawl_data` (storage/local.py lines 410-524). -/
def get_latest_crawl_data (db : DayStore) (crawl_date : String) :
    Option NewsData :=
  match latestCrawlTime db with
  | none => none
  | some latest_time =>
    let rows := db.news_items.filter fun r => r.last_crawl_time == latest_time
    if rows.isEmpty then none
    else
      let news_ids := rows.map fun r => r.id
      let entries := insSort histLt
        (db.rank_history.filter fun e => news_ids.contains e.news_item_id)
      let m := buildRankHistoryMap entries
      let asm := assembleRows db (localItem m) rows
      some
        { date := crawl_date
          crawl_time := latest_time
          items := asm.1
          id_to_name := asm.2
          failed_ids := failedIdsAt db latest_time }

/-- Remote `get_latest_crawl_data` (storage/remote.py lines 618-697):
same queries except that `rank_history` is never consulted and each
item's `ranks` is the singleton `[rank]`. -/
def remote_get_latest_crawl_data (db : DayStore) (crawl_date : String) :
    Option NewsData :=
  match latestCrawlTime db with
  | none => none
  | some latest_time =>
    let rows := db.news_items.filter fun r => r.last_crawl_time == latest_time
    if rows.isEmpty then none
    else
      let asm := assembleRows db remoteItem rows
      some
        { date := crawl_date
          crawl_time := latest_time
          items := asm.1
          id_to_name := asm.2
          failed_ids := failedIdsAt db latest_time }

/-! ### `detect_new_titles` (storage/local.py lines 526-583) -/

/-- One step of the new-title collection (storage/local.py lines
570-577): skip the item when its title is in the platform's historical
set, otherwise store it under `new_titles[source_id][item.title]`. -/
def newTitlesInnerStep (hist_set : List String) (sid : String)
    (nt : List (String × List (String × NewsItem))) (it : NewsItem) :
    List (String × List (String × NewsItem)) :=
  if hist_set.contains it.title then nt
  else aupsert nt sid fun o => aupsert (o.getD []) it.title fun _ => it

/-- The double loop over the current batch (storage/local.py lines
570-577). -/
def newTitlesFold (historical_titles : List (String × List String))
    (items : List (String × List NewsItem)) :
    List (String × List (String × NewsItem)) :=
  items.foldl
    (fun nt pl =>
      pl.2.foldl
        (newTitlesInnerStep ((alookup historical_titles pl.1).getD []) pl.1)
        nt)
    []

/-- `detect_new_titles(current_data)` (storage/local.py lines 526-583):
the result maps a platform id to a title-keyed dict of the current
batch's new items. -/
def detect_new_titles (db : DayStore) (crawl_date now_time : String)
    (current : NewsData) : List (String × List (String × NewsItem)) :=
  match get_today_all_data db crawl_date now_time with
  | none =>
    -- no historical data: everything is new (lines 543-548)
    current.items.map fun pl =>
      (pl.1, pl.2.foldl (fun d it => aupsert d it.title fun _ => it) [])
  | some historical =>
    -- titles whose first_time is strictly before the current batch
    -- (lines 551-561)
    let historical_titles : List (String × List String) :=
      historical.items.map fun pl =>
        (pl.1,
          (pl.2.filter fun it =>
            strLtB it.first_time.data current.crawl_time.data).map
            fun it => it.title)
    -- first crawl of the day: no "new" concept (lines 563-567)
    if historical_titles.all (fun pl => pl.2.isEmpty) then []
    else newTitlesFold historical_titles current.items

/-! ### Claim C4: rank-history row count equals `crawl_count` -/

/-- Number of `rank_history` rows referencing id `i`. -/
def histCountAt (hist : List RankHistoryRow) (i : Nat) : Nat :=
  (hist.filter fun e => e.news_item_id == i).length

/-- Invariants maintained by every save: row ids are below the rowid
counter and pairwise distinct, history rows reference allocated ids, and
each row's history count equals its `crawl_count`. -/
def StoreInv (db : DayStore) : Prop :=
  (∀ r ∈ db.news_items, r.id < db.next_news_id) ∧
  db.news_items.Pairwise (fun a b => a.id ≠ b.id) ∧
  (∀ e ∈ db.rank_history, e.news_item_id < db.next_news_id) ∧
  (∀ r ∈ db.news_items, histCountAt db.rank_history r.id = r.crawl_count)

theorem storeInv_empty : StoreInv emptyStore := by
  refine ⟨?_, ?_, ?_, ?_⟩ <;> simp [emptyStore, histCountAt]

theorem histCountAt_append_same (hist : List RankHistoryRow) {i : Nat}
    (e : RankHistoryRow) (h : e.news_item_id = i) :
    histCountAt (hist ++ [e]) i = histCountAt hist i + 1 := by
  simp [histCountAt, List.filter_append, h]

theorem histCountAt_append_ne (hist : List RankHistoryRow) {i : Nat}
    (e : RankHistoryRow) (h : e.news_item_id ≠ i) :
    histCountAt (hist ++ [e]) i = histCountAt hist i := by
  simp [histCountAt, List.filter_append, h]

theorem histCountAt_eq_zero (hist : List RankHistoryRow) {i : Nat}
    (h : ∀ e ∈ hist, e.news_item_id ≠ i) :
    histCountAt hist i = 0 := by
  simp only [histCountAt, List.length_eq_zero]
  rw [List.filter_eq_nil_iff]
  intro e he
  simp [h e he]

theorem mergeRowUpdate_id (item : NewsItem) (ct now : String) (i : Nat)
    (r : NewsRow) : (mergeRowUpdate item ct now i r).id = r.id := by
  unfold mergeRowUpdate
  split <;> rfl

theorem mergeRowUpdate_count_eq (item : NewsItem) (ct now : String) {i : Nat}
    {r : NewsRow} (h : r.id = i) :
    (mergeRowUpdate item ct now i r).crawl_count = r.crawl_count + 1 := by
  unfold mergeRowUpdate
  rw [if_pos (by simp [h])]

theorem mergeRowUpdate_count_ne (item : NewsItem) (ct now : String) {i : Nat}
    {r : NewsRow} (h : ¬r.id = i) :
    (mergeRowUpdate item ct now i r).crawl_count = r.crawl_count := by
  unfold mergeRowUpdate
  rw [if_neg (by simp [h])]

theorem insertFresh_inv (url' ct now sid : String) (acc : SaveAcc)
    (item : NewsItem) (h : StoreInv acc.db) :
    StoreInv (insertFresh url' ct now sid acc item).db := by
  obtain ⟨h1, h2, h3, h4⟩ := h
  refine ⟨?_, ?_, ?_, ?_⟩
  · intro r hr
    rcases List.mem_append.mp hr with hr | hr
    · exact Nat.lt_succ_of_lt (h1 r hr)
    · simp only [List.mem_singleton] at hr
      subst hr
      exact Nat.lt_succ_self _
  · show List.Pairwise _ (acc.db.news_items ++ [_])
    rw [List.pairwise_append]
    refine ⟨h2, by simp, ?_⟩
    intro a ha b hb
    simp only [List.mem_singleton] at hb
    subst hb
    exact Nat.ne_of_lt (h1 a ha)
  · intro e he
    rcases List.mem_append.mp he with he | he
    · exact Nat.lt_succ_of_lt (h3 e he)
    · simp only [List.mem_singleton] at he
      subst he
      exact Nat.lt_succ_self _
  · intro r hr
    rcases List.mem_append.mp hr with hr | hr
    · show histCountAt (acc.db.rank_history ++
          [⟨acc.db.next_news_id, item.rank, ct, now⟩]) r.id = r.crawl_count
      rw [histCountAt_append_ne _ _ (Nat.ne_of_lt' (h1 r hr))]
      exact h4 r hr
    · simp only [List.mem_singleton] at hr
      subst hr
      show histCountAt (acc.db.rank_history ++
          [⟨acc.db.next_news_id, item.rank, ct, now⟩]) acc.db.next_news_id = 1
      rw [histCountAt_append_same _ _ rfl,
        histCountAt_eq_zero _ fun e he => Nat.ne_of_lt (h3 e he)]

theorem mergeExisting_inv (ct now : String) (acc : SaveAcc) (item : NewsItem)
    (existing : NewsRow) (hmem : existing ∈ acc.db.news_items)
    (h : StoreInv acc.db) :
    StoreInv (mergeExisting ct now acc item existing).db := by
  obtain ⟨h1, h2, h3, h4⟩ := h
  refine ⟨?_, ?_, ?_, ?_⟩
  · intro r hr
    rcases List.mem_map.mp hr with ⟨r0, hr0, rfl⟩
    rw [mergeRowUpdate_id]
    exact h1 r0 hr0
  · show List.Pairwise _ (acc.db.news_items.map _)
    rw [List.pairwise_map]
    refine h2.imp ?_
    intro a b hab
    rw [mergeRowUpdate_id, mergeRowUpdate_id]
    exact hab
  · intro e he
    rcases List.mem_append.mp he with he | he
    · exact h3 e he
    · simp only [List.mem_singleton] at he
      subst he
      exact h1 existing hmem
  · intro r hr
    rcases List.mem_map.mp hr with ⟨r0, hr0, rfl⟩
    show histCountAt (acc.db.rank_history ++ [⟨existing.id, item.rank, ct, now⟩])
        (mergeRowUpdate item ct now existing.id r0).id =
      (mergeRowUpdate item ct now existing.id r0).crawl_count
    rw [mergeRowUpdate_id]
    by_cases hre : r0.id = existing.id
    · rw [mergeRowUpdate_count_eq _ _ _ hre,
        histCountAt_append_same _ _ hre.symm, h4 r0 hr0]
    · rw [mergeRowUpdate_count_ne _ _ _ hre,
        histCountAt_append_ne _ _ fun hcon => hre hcon.symm]
      exact h4 r0 hr0

theorem saveItem_inv (nu : String → String → String) (ct now sid : String)
    (acc : SaveAcc) (item : NewsItem) (h : StoreInv acc.db) :
    StoreInv (saveItem nu ct now sid acc item).db := by
  unfold saveItem
  by_cases hu : item.url ≠ ""
  · rw [if_pos hu]
    by_cases hn : nu item.url sid ≠ ""
    · rw [if_pos hn]
      cases hf : acc.db.news_items.find? fun r =>
          r.url == nu item.url sid && r.platform_id == sid with
      | none => exact insertFresh_inv _ _ _ _ _ _ h
      | some existing =>
        exact mergeExisting_inv _ _ _ _ _ (List.mem_of_find?_eq_some hf) h
    · rw [if_neg hn]
      exact insertFresh_inv _ _ _ _ _ _ h
  · rw [if_neg hu, if_neg (by simp)]
    exact insertFresh_inv _ _ _ _ _ _ h

theorem saveAllItems_inv (nu : String → String → String) (ct now : String)
    (items : List (String × List NewsItem)) (acc : SaveAcc)
    (h : StoreInv acc.db) :
    StoreInv (saveAllItems nu ct now items acc).db := by
  induction items generalizing acc with
  | nil => exact h
  | cons pl t ih =>
    simp only [saveAllItems, List.foldl_cons]
    have hinner : ∀ (l : List NewsItem) (a : SaveAcc), StoreInv a.db →
        StoreInv (l.foldl (saveItem nu ct now pl.1) a).db := by
      intro l
      induction l with
      | nil => exact fun a ha => ha
      | cons it lt ihl =>
        intro a ha
        simp only [List.foldl_cons]
        exact ihl _ (saveItem_inv nu ct now pl.1 a it ha)
    exact ih _ (hinner pl.2 acc h)

theorem foldl_keep_core {α : Type} (f : DayStore → α → DayStore)
    (hf : ∀ d a, (f d a).news_items = d.news_items ∧
      (f d a).rank_history = d.rank_history ∧
      (f d a).next_news_id = d.next_news_id)
    (l : List α) (d : DayStore) :
    (l.foldl f d).news_items = d.news_items ∧
      (l.foldl f d).rank_history = d.rank_history ∧
      (l.foldl f d).next_news_id = d.next_news_id := by
  induction l generalizing d with
  | nil => exact ⟨rfl, rfl, rfl⟩
  | cons a t ih =>
    simp only [List.foldl_cons]
    obtain ⟨e1, e2, e3⟩ := hf d a
    obtain ⟨i1, i2, i3⟩ := ih (f d a)
    exact ⟨i1.trans e1, i2.trans e2, i3.trans e3⟩

theorem storeInv_congr {d d' : DayStore} (e1 : d'.news_items = d.news_items)
    (e2 : d'.rank_history = d.rank_history)
    (e3 : d'.next_news_id = d.next_news_id) (h : StoreInv d) : StoreInv d' := by
  unfold StoreInv at h ⊢
  rw [e1, e2, e3]
  exact h

theorem recordStatuses_core (now : String) (data : NewsData) (recId : Nat)
    (db : DayStore) :
    (recordStatuses now data recId db).news_items = db.news_items ∧
      (recordStatuses now data recId db).rank_history = db.rank_history ∧
      (recordStatuses now data recId db).next_news_id = db.next_news_id := by
  unfold recordStatuses
  obtain ⟨s1, s2, s3⟩ := foldl_keep_core
    (fun d sid =>
      { d with source_status := upsertSourceStatus d.source_status recId sid true })
    (fun d a => ⟨rfl, rfl, rfl⟩) (data.items.map fun pl => pl.1) db
  obtain ⟨f1, f2, f3⟩ := foldl_keep_core
    (fun d fid =>
      let d1 := { d with
        platforms :=
          if (alookup d.platforms fid).isSome then d.platforms
          else d.platforms ++ [(fid, fid, now)] }
      { d1 with
        source_status := upsertSourceStatus d1.source_status recId fid false })
    (fun d a => ⟨rfl, rfl, rfl⟩)
    data.failed_ids
    ((data.items.map fun pl => pl.1).foldl
      (fun d sid =>
        { d with source_status := upsertSourceStatus d.source_status recId sid true })
      db)
  exact ⟨f1.trans s1, f2.trans s2, f3.trans s3⟩

theorem saveCrawlRecordAndStatuses_inv (now : String) (data : NewsData)
    (acc : SaveAcc) (h : StoreInv acc.db) :
    StoreInv (saveCrawlRecordAndStatuses now data acc) := by
  unfold saveCrawlRecordAndStatuses
  dsimp only
  split
  · exact storeInv_congr rfl rfl rfl h
  · rename_i rec heq
    obtain ⟨c1, c2, c3⟩ := recordStatuses_core now data rec.id
      { acc.db with
        crawl_records := (acc.db.crawl_records.filter fun r =>
            r.crawl_time ≠ data.crawl_time) ++
          [⟨acc.db.next_crawl_record_id, data.crawl_time,
            acc.new_count + acc.updated_count, now⟩]
        next_crawl_record_id := acc.db.next_crawl_record_id + 1 }
    exact storeInv_congr c1 c2 c3 h

theorem save_news_data_inv (nu : String → String → String) (now : String)
    (db : DayStore) (data : NewsData) (h : StoreInv db) :
    StoreInv (save_news_data nu now db data) := by
  unfold save_news_data
  exact saveCrawlRecordAndStatuses_inv now data _
    (saveAllItems_inv nu data.crawl_time now data.items _
      (storeInv_congr rfl rfl rfl h))

/-- Apply a sequence of saves (each with its wall-clock string) to a
freshly created day store. -/
def applySaves (nu : String → String → String)
    (saves : List (String × NewsData)) : DayStore :=
  saves.foldl (fun db p => save_news_data nu p.1 db p.2) emptyStore

theorem applySaves_inv (nu : String → String → String)
    (saves : List (String × NewsData)) : StoreInv (applySaves nu saves) := by
  unfold applySaves
  have hgen : ∀ (l : List (String × NewsData)) (d : DayStore), StoreInv d →
      StoreInv (l.foldl (fun db p => save_news_data nu p.1 db p.2) d) := by
    intro l
    induction l with
    | nil => exact fun d hd => hd
    | cons p t ih =>
      intro d hd
      simp only [List.foldl_cons]
      exact ih _ (save_news_data_inv nu p.1 d p.2 hd)
  exact hgen saves emptyStore storeInv_empty

def exItemA : NewsItem :=
  { title := "t", source_id := "p", source_name := "P", rank := 1, url := "u",
    mobile_url := "", crawl_time := "09-00", ranks := [1],
    first_time := "09-00", last_time := "09-00", count := 1 }

def exBatchA : NewsData :=
  { date := "2025-11-26", crawl_time := "09-00",
    items := [("p", [exItemA])], id_to_name := [("p", "P")], failed_ids := [] }

/-- Claim C4: after every sequence of `save_news_data` calls on a
day-store, each `news_items` row has exactly `crawl_count` many
`rank_history` rows referencing its id — merges append one history row
and increment `crawl_count` (storage/local.py lines 177-194), inserts
start with `crawl_count = 1` and one history row (lines 196-233).
Holds for any URL canonicalizer `nu`. -/
theorem c4_rank_history_count (nu : String → String → String)
    (saves : List (String × NewsData)) (r : NewsRow)
    (h : r ∈ (applySaves nu saves).news_items) :
    ((applySaves nu saves).rank_history.filter fun e =>
      e.news_item_id == r.id).length = r.crawl_count :=
  (applySaves_inv nu saves).2.2.2 r h

/-- Witness for C4: one concrete save, its row, and its single history
entry. -/
theorem c4_witness :
    (⟨1, "p", "t", 1, "u", "", "09-00", "09-00", 1, "ts", "ts"⟩ : NewsRow) ∈
      (applySaves (fun u _ => u) [("ts", exBatchA)]).news_items ∧
    ((applySaves (fun u _ => u) [("ts", exBatchA)]).rank_history.filter fun e =>
      e.news_item_id ==
        (⟨1, "p", "t", 1, "u", "", "09-00", "09-00", 1, "ts", "ts"⟩ : NewsRow).id).length =
      (⟨1, "p", "t", 1, "u", "", "09-00", "09-00", 1, "ts", "ts"⟩ : NewsRow).crawl_count :=
  ⟨by decide, c4_rank_history_count (fun u _ => u) [("ts", exBatchA)] _ (by decide)⟩

/-! ### Claim C7: remote vs local latest-crawl read -/

/-- Replace an item's rank history by the singleton of its current rank. -/
def collapseItem (it : NewsItem) : NewsItem :=
  { it with ranks := [it.rank] }

/-- Apply `collapseItem` to every item of every platform. -/
def collapseItems (l : List (String × List NewsItem)) :
    List (String × List NewsItem) :=
  l.map fun p => (p.1, p.2.map collapseItem)

/-- Collapse every rank history of a `NewsData` value. -/
def collapseNewsData (nd : NewsData) : NewsData :=
  { nd with items := collapseItems nd.items }

theorem collapseItem_localItem (m : List (Nat × List Nat)) (row : NewsRow)
    (pname : String) : collapseItem (localItem m row pname) = remoteItem row pname := rfl

theorem aupsert_map_vals {κ β γ : Type} [BEq κ] (g : β → γ)
    (d : List (κ × β)) (k : κ) (f : Option β → β) (f' : Option γ → γ)
    (hcomm : ∀ o : Option β, f' (o.map g) = g (f o)) :
    aupsert (d.map fun p => (p.1, g p.2)) k f' =
      (aupsert d k f).map fun p => (p.1, g p.2) := by
  induction d with
  | nil =>
    have h0 : f' none = g (f none) := hcomm none
    simp only [List.map_nil, aupsert, List.map_cons]
    rw [h0]
  | cons p t ih =>
    simp only [List.map_cons, aupsert]
    by_cases hk : p.1 == k
    · rw [if_pos hk, if_pos hk]
      have h2 : f' (some (g p.2)) = g (f (some p.2)) := hcomm (some p.2)
      rw [h2]
      rfl
    · rw [if_neg (by simpa using hk), if_neg (by simpa using hk)]
      simp [ih]

theorem assemble_collapse (db : DayStore) (m : List (Nat × List Nat))
    (rows : List NewsRow) :
    ∀ (accI : List (String × List NewsItem)) (accN : List (String × String)),
    rows.foldl
        (fun acc row =>
          let pname := platformNameOf db row.platform_id
          (aupsert acc.1 row.platform_id fun o =>
            (o.getD []) ++ [remoteItem row pname],
           aupsert acc.2 row.platform_id fun _ => pname))
        (collapseItems accI, accN) =
      ((collapseItems (rows.foldl
          (fun acc row =>
            let pname := platformNameOf db row.platform_id
            (aupsert acc.1 row.platform_id fun o =>
              (o.getD []) ++ [localItem m row pname],
             aupsert acc.2 row.platform_id fun _ => pname))
          (accI, accN)).1),
        (rows.foldl
          (fun acc row =>
            let pname := platformNameOf db row.platform_id
            (aupsert acc.1 row.platform_id fun o =>
              (o.getD []) ++ [localItem m row pname],
             aupsert acc.2 row.platform_id fun _ => pname))
          (accI, accN)).2) := by
  induction rows with
  | nil => intro accI accN; rfl
  | cons row t ih =>
    intro accI accN
    simp only [List.foldl_cons]
    have hstep :
        aupsert (collapseItems accI) row.platform_id
            (fun o => (o.getD []) ++
              [remoteItem row (platformNameOf db row.platform_id)]) =
          collapseItems (aupsert accI row.platform_id fun o =>
            (o.getD []) ++ [localItem m row (platformNameOf db row.platform_id)]) := by
      unfold collapseItems
      rw [aupsert_map_vals (List.map collapseItem) accI row.platform_id _ _ ?_]
      intro o
      cases o with
      | none => simp [collapseItem_localItem]
      | some l => simp [collapseItem_localItem]
    rw [hstep]
    exact ih _ _

/-- `assembleRows` with the remote item builder equals the local
assembly with every rank history collapsed; the `id_to_name` part is
identical. -/
theorem assembleRows_collapse (db : DayStore) (m : List (Nat × List Nat))
    (rows : List NewsRow) :
    assembleRows db remoteItem rows =
      ((collapseItems (assembleRows db (localItem m) rows).1),
        (assembleRows db (localItem m) rows).2) := by
  unfold assembleRows
  exact assemble_collapse db m rows [] []

/-- Claim C7 (amended): for every day-store state, the remote backend's
latest-crawl read equals the local backend's latest-crawl read with each
item's rank history collapsed to the singleton of its current rank
(storage/remote.py line 671 hands `ranks=[row[3]]` to the item and never
queries `rank_history`; everything else — dates, times, platform
grouping and names, counts, first/last times, failed ids — agrees). -/
theorem c7_remote_latest_collapses_ranks (db : DayStore) (crawl_date : String) :
    remote_get_latest_crawl_data db crawl_date =
      Option.map collapseNewsData (get_latest_crawl_data db crawl_date) := by
  unfold remote_get_latest_crawl_data get_latest_crawl_data
  cases hlt : latestCrawlTime db with
  | none => rfl
  | some latest_time =>
    cases hemp : (db.news_items.filter fun r =>
        r.last_crawl_time == latest_time).isEmpty with
    | true => simp [hemp]
    | false =>
      simp only [hemp, Bool.false_eq_true, if_false, Option.map_some]
      rw [assembleRows_collapse db
        (buildRankHistoryMap (insSort histLt
          (db.rank_history.filter fun e =>
            ((db.news_items.filter fun r =>
                r.last_crawl_time == latest_time).map fun r => r.id).contains
              e.news_item_id)))
        (db.news_items.filter fun r => r.last_crawl_time == latest_time)]
      rfl

def exItemB : NewsItem :=
  { exItemA with
    rank := 2
    crawl_time := "10-00"
    first_time := "10-00"
    last_time := "10-00" }

def exBatchB : NewsData :=
  { date := "2025-11-26", crawl_time := "10-00",
    items := [("p", [exItemB])], id_to_name := [("p", "P")], failed_ids := [] }

/-- A store holding one item observed at "09-00" with rank 1 and at
"10-00" with rank 2 (same URL, so the second save merges). -/
def exStore2 : DayStore :=
  applySaves (fun u _ => u) [("t1", exBatchA), ("t2", exBatchB)]

/-- Claim C7, counterexample: on a store where one item was observed
twice with different ranks, the remote latest-crawl read differs from
the local one — the local `ranks` is the deduplicated history `[1, 2]`,
the remote `ranks` is the singleton `[2]`. -/
theorem c7_counterexample :
    remote_get_latest_crawl_data exStore2 "2025-11-26" ≠
      get_latest_crawl_data exStore2 "2025-11-26" := by decide

/-! ### Claim C9: the full-day read deduplicates rank histories -/

/-- Lookup after a group-by-key fold of dict upserts: only the entries
whose key matches are threaded through, in order. -/
theorem alookup_foldl_aupsert {κ β α : Type} [BEq κ] [LawfulBEq κ]
    [DecidableEq κ] (key : α → κ) (upd : α → Option β → β) (l : List α)
    (m : List (κ × β)) (j : κ) :
    alookup (l.foldl (fun m a => aupsert m (key a) (upd a)) m) j =
      (l.filter fun a => key a == j).foldl (fun o a => some (upd a o))
        (alookup m j) := by
  induction l generalizing m with
  | nil => rfl
  | cons a t ih =>
    simp only [List.foldl_cons, List.filter_cons]
    by_cases hk : key a = j
    · rw [if_pos (by simp [hk]), List.foldl_cons, ih,
        alookup_aupsert, if_pos hk.symm]
      subst hk
      rfl
    · rw [if_neg (by simp [hk]), ih, alookup_aupsert_ne _ (fun hcon => hk hcon.symm)]

/-- Splitting a paired fold whose components do not interact. -/
theorem foldl_prod_split {α β γ : Type} (f : β → α → β) (g : γ → α → γ)
    (l : List α) (b : β) (c : γ) :
    l.foldl (fun p a => (f p.1 a, g p.2 a)) (b, c) = (l.foldl f b, l.foldl g c) := by
  induction l generalizing b c with
  | nil => rfl
  | cons a t ih => simp only [List.foldl_cons]; exact ih (f b a) (g c a)

/-- `dedupFirst` extended from an arbitrary starting bucket. -/
def dedupAppend (cur : List Nat) (rs : List Nat) : List Nat :=
  rs.foldl (fun c r => if c.contains r then c else c ++ [r]) cur

theorem foldl_dedup_step {α : Type} (f : α → Nat) (rs : List α) :
    ∀ cur : List Nat,
    rs.foldl (fun (o : Option (List Nat)) a =>
        some (if (o.getD []).contains (f a) then o.getD []
          else (o.getD []) ++ [f a])) (some cur) =
      some (dedupAppend cur (rs.map f)) := by
  induction rs with
  | nil => intro cur; rfl
  | cons r t ih =>
    intro cur
    simp only [List.foldl_cons, List.map_cons, dedupAppend]
    by_cases hc : cur.contains (f r)
    · simp only [Option.getD_some, hc, if_true, if_pos, List.foldl_cons]
      exact ih cur
    · simp only [Option.getD_some, hc, Bool.false_eq_true, if_false, if_neg,
        List.foldl_cons]
      exact ih (cur ++ [f r])

/-- Characterization of the rank-history map built by the reads
(storage/local.py lines 329-342): the bucket of id `i` is exactly the
first-occurrence deduplication of the rank sequence of `i`'s entries in
the order given. -/
theorem alookup_buildRankHistoryMap (entries : List RankHistoryRow) (i : Nat) :
    alookup (buildRankHistoryMap entries) i =
      if (entries.filter fun e => e.news_item_id == i).isEmpty then none
      else some (dedupFirst
        ((entries.filter fun e => e.news_item_id == i).map fun e => e.rank)) := by
  unfold buildRankHistoryMap
  rw [alookup_foldl_aupsert (fun e => e.news_item_id)
    (fun e o => if (o.getD []).contains e.rank then o.getD []
      else (o.getD []) ++ [e.rank]) entries [] i]
  cases hfe : entries.filter fun e => e.news_item_id == i with
  | nil => rfl
  | cons e t =>
    simp only [List.isEmpty_cons, Bool.false_eq_true, if_false, List.foldl_cons]
    have h0 : (alookup ([] : List (Nat × List Nat)) i) = none := rfl
    rw [h0]
    show t.foldl _ (some (if ([] : List Nat).contains e.rank then []
      else [] ++ [e.rank])) = _
    rw [foldl_dedup_step (fun e : RankHistoryRow => e.rank) t]
    show some (dedupAppend [e.rank] (t.map fun q => q.rank)) = _
    unfold dedupFirst dedupAppend
    simp only [List.map_cons, List.foldl_cons]
    rfl

theorem assembleRows_eq_pair (db : DayStore) (mk : NewsRow → String → NewsItem)
    (rows : List NewsRow) :
    assembleRows db mk rows =
      (rows.foldl (fun g row => aupsert g row.platform_id fun o =>
          (o.getD []) ++ [mk row (platformNameOf db row.platform_id)]) [],
       rows.foldl (fun g row => aupsert g row.platform_id fun _ =>
          platformNameOf db row.platform_id) []) := by
  unfold assembleRows
  exact foldl_prod_split
    (fun g row => aupsert g row.platform_id fun o =>
      (o.getD []) ++ [mk row (platformNameOf db row.platform_id)])
    (fun g row => aupsert g row.platform_id fun _ =>
      platformNameOf db row.platform_id)
    rows [] []

theorem foldl_append_chain_some {α β : Type} (h : α → β) (l : List α) :
    ∀ cur : List β,
    l.foldl (fun (o : Option (List β)) a => some ((o.getD []) ++ [h a]))
        (some cur) =
      some (cur ++ l.map h) := by
  induction l with
  | nil => intro cur; simp
  | cons a t ih =>
    intro cur
    simp only [List.foldl_cons, Option.getD_some, List.map_cons]
    rw [ih (cur ++ [h a])]
    simp

theorem foldl_append_chain_none {α β : Type} (h : α → β) (l : List α) :
    l.foldl (fun (o : Option (List β)) a => some ((o.getD []) ++ [h a])) none =
      if l.isEmpty then none else some (l.map h) := by
  cases l with
  | nil => rfl
  | cons a t =>
    simp only [List.foldl_cons, List.isEmpty_cons, Bool.false_eq_true, if_false]
    show t.foldl _ (some ([] ++ [h a])) = _
    rw [foldl_append_chain_some]
    simp

/-- Per-platform contents of the assembled items: exactly the rows of
that platform, in query order, each turned into an item by `mk`. -/
theorem alookup_assembleRows (db : DayStore) (mk : NewsRow → String → NewsItem)
    (rows : List NewsRow) (p : String) :
    alookup (assembleRows db mk rows).1 p =
      if (rows.filter fun r => r.platform_id == p).isEmpty then none
      else some ((rows.filter fun r => r.platform_id == p).map fun r =>
        mk r (platformNameOf db r.platform_id)) := by
  rw [assembleRows_eq_pair]
  show alookup (rows.foldl _ []) p = _
  rw [alookup_foldl_aupsert (fun r => r.platform_id)
    (fun row o => (o.getD []) ++ [mk row (platformNameOf db row.platform_id)])
    rows [] p]
  have h0 : (alookup ([] : List (String × List NewsItem)) p) = none := rfl
  rw [h0, foldl_append_chain_none]


def exItemC : NewsItem :=
  { exItemA with
    crawl_time := "10-00"
    first_time := "10-00"
    last_time := "10-00" }

def exBatchC : NewsData :=
  { date := "2025-11-26", crawl_time := "10-00",
    items := [("p", [exItemC])], id_to_name := [("p", "P")], failed_ids := [] }

theorem dedupAppend_nodup (rs : List Nat) :
    ∀ cur : List Nat, cur.Nodup → (dedupAppend cur rs).Nodup := by
  induction rs with
  | nil => exact fun cur h => h
  | cons r t ih =>
    intro cur hcur
    simp only [dedupAppend, List.foldl_cons]
    by_cases hc : cur.contains r
    · rw [if_pos hc]
      exact ih cur hcur
    · rw [if_neg hc]
      refine ih (cur ++ [r]) ?_
      rw [List.nodup_append]
      refine ⟨hcur, List.nodup_singleton r, ?_⟩
      intro a ha hb
      simp only [List.mem_singleton] at hb
      subst hb
      exact hc (List.elem_iff.mpr ha)

theorem dedupFirst_nodup (l : List Nat) : (dedupFirst l).Nodup :=
  dedupAppend_nodup l [] List.nodup_nil

/-- Claim C9: the full-day read assembles each item's `ranks` with
duplicate rank values removed — every returned item is the image of a
stored row, its `ranks` is the first-occurrence deduplication
(`dedupFirst`) of that row's chronologically ordered rank history (or
`[rank]` when the history is empty), `ranks` has no duplicates, and its
`count` is the stored `crawl_count`; on a store where one item was saved
twice at the same rank, the returned `ranks` has length 1 while
`crawl_count` is 2. -/
theorem c9_ranks_deduped :
    (∀ (db : DayStore) (crawl_date now_time : String) (nd : NewsData)
       (p : String) (l : List NewsItem) (it : NewsItem),
      get_today_all_data db crawl_date now_time = some nd →
      alookup nd.items p = some l → it ∈ l →
      ∃ r ∈ db.news_items, r.platform_id = p ∧
        it = localItem
          (buildRankHistoryMap (insSort histLt
            (db.rank_history.filter fun e =>
              ((insSort rowLt db.news_items).map fun q => q.id).contains
                e.news_item_id)))
          r (platformNameOf db r.platform_id) ∧
        it.count = r.crawl_count ∧
        it.ranks =
          (if ((insSort histLt (db.rank_history.filter fun e =>
                ((insSort rowLt db.news_items).map fun q => q.id).contains
                  e.news_item_id)).filter fun e =>
                e.news_item_id == r.id).isEmpty
           then [r.rank]
           else dedupFirst (((insSort histLt (db.rank_history.filter fun e =>
              ((insSort rowLt db.news_items).map fun q => q.id).contains
                e.news_item_id)).filter fun e =>
              e.news_item_id == r.id).map fun e => e.rank)) ∧
        it.ranks.Nodup) ∧
    ((get_today_all_data
        (applySaves (fun u _ => u) [("t1", exBatchA), ("t2", exBatchC)])
        "2025-11-26" "10-00").map (fun nd =>
      nd.items.any fun pl => pl.2.any fun it =>
        it.count == 2 && it.ranks.length == 1)).getD false = true := by
  constructor
  · intro db crawl_date now_time nd p l it hread hlook hit
    unfold get_today_all_data at hread
    by_cases hemp : (insSort rowLt db.news_items).isEmpty
    · rw [if_pos hemp] at hread
      exact absurd hread (by simp)
    · rw [if_neg hemp] at hread
      have hnd := (Option.some.injEq _ _).mp hread
      have hitems : nd.items =
          (assembleRows db
            (localItem (buildRankHistoryMap (insSort histLt
              (db.rank_history.filter fun e =>
                ((insSort rowLt db.news_items).map fun q => q.id).contains
                  e.news_item_id))))
            (insSort rowLt db.news_items)).1 := by
        rw [← hnd]
      rw [hitems, alookup_assembleRows] at hlook
      by_cases hfe : ((insSort rowLt db.news_items).filter fun r =>
          r.platform_id == p).isEmpty
      · rw [if_pos hfe] at hlook
        exact absurd hlook (by simp)
      · rw [if_neg hfe] at hlook
        have hl := (Option.some.injEq _ _).mp hlook
        rw [← hl] at hit
        rcases List.mem_map.mp hit with ⟨r, hrf, rfl⟩
        have hrmem : r ∈ db.news_items := by
          have := List.mem_of_mem_filter hrf
          rw [mem_insSort] at this
          exact this
        have hrp : r.platform_id = p := by
          have := List.of_mem_filter hrf
          simpa using this
        refine ⟨r, hrmem, hrp, rfl, rfl, ?_, ?_⟩
        · show (alookup (buildRankHistoryMap _) r.id).getD [r.rank] = _
          rw [alookup_buildRankHistoryMap]
          by_cases hje : ((insSort histLt (db.rank_history.filter fun e =>
              ((insSort rowLt db.news_items).map fun q => q.id).contains
                e.news_item_id)).filter fun e => e.news_item_id == r.id).isEmpty
          · rw [if_pos hje, if_pos hje]
            rfl
          · rw [if_neg hje, if_neg hje]
            rfl
        · show ((alookup (buildRankHistoryMap _) r.id).getD [r.rank]).Nodup
          rw [alookup_buildRankHistoryMap]
          by_cases hje : ((insSort histLt (db.rank_history.filter fun e =>
              ((insSort rowLt db.news_items).map fun q => q.id).contains
                e.news_item_id)).filter fun e => e.news_item_id == r.id).isEmpty
          · rw [if_pos hje]
            exact List.nodup_singleton _
          · rw [if_neg hje]
            exact dedupFirst_nodup _
  · decide

/-- The store of the C9 witness: the same item saved at "09-00" and
"10-00", both at rank 1 (the merge leaves a two-entry history with one
distinct rank). -/
def exStore3 : DayStore :=
  applySaves (fun u _ => u) [("t1", exBatchA), ("t2", exBatchC)]

def exOut3 : NewsItem :=
  ⟨"t", "p", "P", 1, "u", "", "10-00", [1], "09-00", "10-00", 2⟩

def exNd3 : NewsData :=
  { date := "2025-11-26", crawl_time := "10-00",
    items := [("p", [exOut3])], id_to_name := [("p", "P")], failed_ids := [] }

/-- Witness for C9: the theorem applied to the concrete two-save store;
the returned item has `count = 2` but a single-element `ranks`. -/
theorem c9_ranks_deduped_witness :
    ∃ r ∈ exStore3.news_items, r.platform_id = "p" ∧
      exOut3 = localItem
        (buildRankHistoryMap (insSort histLt
          (exStore3.rank_history.filter fun e =>
            ((insSort rowLt exStore3.news_items).map fun q => q.id).contains
              e.news_item_id)))
        r (platformNameOf exStore3 r.platform_id) ∧
      exOut3.count = r.crawl_count ∧
      exOut3.ranks =
        (if ((insSort histLt (exStore3.rank_history.filter fun e =>
              ((insSort rowLt exStore3.news_items).map fun q => q.id).contains
                e.news_item_id)).filter fun e =>
              e.news_item_id == r.id).isEmpty
         then [r.rank]
         else dedupFirst (((insSort histLt (exStore3.rank_history.filter fun e =>
            ((insSort rowLt exStore3.news_items).map fun q => q.id).contains
              e.news_item_id)).filter fun e =>
            e.news_item_id == r.id).map fun e => e.rank)) ∧
      exOut3.ranks.Nodup :=
  c9_ranks_deduped.1 exStore3 "2025-11-26" "10-00" exNd3 "p" [exOut3] exOut3
    (by decide) (by decide) (by decide)

/-! ### Claim C6 — `trigger_crawl` (src/mcp_server/tools/system.py
lines 68-278)

The fetcher (out of scope, spec §6) yields
`(results, id_to_name, failed_ids)`; `results` maps a platform id to a
title-keyed dict of `{ranks, url, mobileUrl}`.  The model covers the
post-fetch logic: the persistence attempt, the response data built from
the raw fetch results (lines 216-230), and the response fields
(lines 232-257).  Wall-clock strings are parameters. -/

/-- One fetched title's info dict. -/
structure FetchInfo where
  ranks : List Nat
  url : String
  mobileUrl : String
deriving DecidableEq

/-- One entry of the `data` array of the response (lines 221-230);
`url`/`mobile_url` are present only when `include_url` is set. -/
structure TriggerItem where
  platform_id : String
  platform_name : String
  title : String
  ranks : List Nat
  url : Option String
  mobile_url : Option String
deriving DecidableEq

/-- The response dict of `trigger_crawl` (lines 232-257); optional keys
are `Option`s. -/
structure TriggerResult where
  success : Bool
  crawl_time : String
  platforms : List String
  total_news : Nat
  failed_platforms : List String
  data : List TriggerItem
  saved_to_local : Bool
  save_error : Option String
  note : Option String
  saved_files : Option (List (String × String))
deriving DecidableEq

/-- Outcome of the persistence `try` block (lines 186-209): either it
ran to completion and `save_news_data` returned a boolean, or an
exception escaped and was caught with message `str(e)`. -/
inductive SaveAttempt
  | completed : Bool → SaveAttempt
  | raised : String → SaveAttempt
deriving DecidableEq

/-- The `news_response_data` list (lines 217-230), built from the raw
fetch results, independent of the persistence outcome. -/
def buildNewsResponseData (results : List (String × List (String × FetchInfo)))
    (id_to_name : List (String × String)) (include_url : Bool) :
    List TriggerItem :=
  results.foldl
    (fun acc pl =>
      acc ++ pl.2.map fun ti =>
        { platform_id := pl.1
          platform_name := (alookup id_to_name pl.1).getD pl.1
          title := ti.1
          ranks := ti.2.ranks
          url := if include_url then some ti.2.url else none
          mobile_url := if include_url then some ti.2.mobileUrl else none })
    []

/-- Response assembly of `trigger_crawl` after the fetch (lines
181-257): `save_success`/`save_error_msg` from the attempt, then the
result dict with the success note, or — on failure — `saved_to_local =
false`, the `save_error`, and a note chosen by probing the message for
read-only/permission markers (line 254). -/
def trigger_crawl_response (results : List (String × List (String × FetchInfo)))
    (id_to_name : List (String × String)) (failed_ids : List String)
    (save_to_local include_url : Bool) (attempt : SaveAttempt)
    (saved_files : List (String × String)) (crawl_time_str : String) :
    TriggerResult :=
  let save_success := match attempt with
    | SaveAttempt.completed b => b
    | SaveAttempt.raised _ => false
  let save_error_msg := match attempt with
    | SaveAttempt.completed _ => ""
    | SaveAttempt.raised m => m
  let news_response_data := buildNewsResponseData results id_to_name include_url
  let base : TriggerResult :=
    { success := true
      crawl_time := crawl_time_str
      platforms := results.map fun pl => pl.1
      total_news := news_response_data.length
      failed_platforms := failed_ids
      data := news_response_data
      saved_to_local := save_success && save_to_local
      save_error := none
      note := none
      saved_files := none }
  if save_success then
    if save_to_local then
      { base with
        saved_files := some saved_files
        note := some "数据已保存到 SQLite 数据库及 output 文件夹" }
    else
      { base with
        note := some "数据已保存到 SQLite 数据库 (仅内存中返回结果，未生成TXT快照)" }
  else
    { base with
      saved_to_local := false
      save_error := some save_error_msg
      note := some
        (if pySub "Read-only file system".data save_error_msg.data ||
            pySub "Permission denied".data save_error_msg.data then
          "爬取成功，但无法写入数据库（Docker只读模式）。数据仅在本次返回中有效。"
        else "爬取成功但保存失败: " ++ save_error_msg) }

/-- Claim C6: when the fetch succeeds but persisting raises (message
`msg`), the response still has `success = true`, still carries the
fetched data (and the platform/failed lists), and additionally has
`saved_to_local = false`, `save_error = msg`, and a non-empty
explanatory note — the storage failure never masks the fetch success. -/
theorem c6_save_failure_never_masks_fetch
    (results : List (String × List (String × FetchInfo)))
    (id_to_name : List (String × String)) (failed_ids : List String)
    (save_to_local include_url : Bool) (msg : String)
    (saved_files : List (String × String)) (ts : String) :
    (trigger_crawl_response results id_to_name failed_ids save_to_local
        include_url (SaveAttempt.raised msg) saved_files ts).success = true ∧
    (trigger_crawl_response results id_to_name failed_ids save_to_local
        include_url (SaveAttempt.raised msg) saved_files ts).data =
      buildNewsResponseData results id_to_name include_url ∧
    (trigger_crawl_response results id_to_name failed_ids save_to_local
        include_url (SaveAttempt.raised msg) saved_files ts).platforms =
      results.map (fun pl => pl.1) ∧
    (trigger_crawl_response results id_to_name failed_ids save_to_local
        include_url (SaveAttempt.raised msg) saved_files ts).failed_platforms =
      failed_ids ∧
    (trigger_crawl_response results id_to_name failed_ids save_to_local
        include_url (SaveAttempt.raised msg) saved_files ts).saved_to_local =
      false ∧
    (trigger_crawl_response results id_to_name failed_ids save_to_local
        include_url (SaveAttempt.raised msg) saved_files ts).save_error =
      some msg ∧
    (trigger_crawl_response results id_to_name failed_ids save_to_local
        include_url (SaveAttempt.raised msg) saved_files ts).note.isSome =
      true := by
  unfold trigger_crawl_response
  refine ⟨rfl, rfl, rfl, rfl, rfl, rfl, rfl⟩

/-! ### Claim C1 -/

theorem alookup_map_pairvals {β γ : Type} (g : β → γ)
    (d : List (String × β)) (k : String) :
    alookup (d.map fun pl => (pl.1, g pl.2)) k = (alookup d k).map g := by
  induction d with
  | nil => rfl
  | cons p t ih =>
    simp only [List.map_cons, alookup]
    by_cases hk : p.1 == k
    · rw [if_pos hk, if_pos hk]
      rfl
    · rw [if_neg hk, if_neg hk]
      exact ih

theorem alookup_mem {β : Type} {d : List (String × β)} {k : String} {v : β}
    (h : alookup d k = some v) : (k, v) ∈ d := by
  induction d with
  | nil => exact absurd h (by simp [alookup])
  | cons p t ih =>
    simp only [alookup] at h
    by_cases hk : p.1 == k
    · rw [if_pos hk] at h
      have hv := (Option.some.injEq _ _).mp h
      have hk' : p.1 = k := by simpa using hk
      rw [← hv, ← hk']
      exact List.mem_cons_self _ _
    · rw [if_neg hk] at h
      exact List.mem_cons_of_mem _ (ih h)

theorem alookup_of_mem_nodup {β : Type} {d : List (String × β)} {k : String}
    {v : β} (hnd : (d.map fun p => p.1).Nodup) (h : (k, v) ∈ d) :
    alookup d k = some v := by
  induction d with
  | nil => exact absurd h (by simp)
  | cons p t ih =>
    simp only [List.map_cons, List.nodup_cons] at hnd
    rcases List.mem_cons.mp h with rfl | hmem
    · simp [alookup]
    · have hne : ¬p.1 == k := by
        simp only [beq_iff_eq]
        intro hcon
        exact hnd.1 (hcon ▸ (List.mem_map.mpr ⟨(k, v), hmem, rfl⟩))
      simp only [alookup, if_neg hne]
      exact ih hnd.2 hmem

theorem mem_keys_aupsert {β : Type} (d : List (String × β)) (k j : String)
    (f : Option β → β) :
    j ∈ (aupsert d k f).map (fun p => p.1) ↔
      j ∈ d.map (fun p => p.1) ∨ j = k := by
  induction d with
  | nil => simp [aupsert, eq_comm]
  | cons p t ih =>
    simp only [aupsert]
    by_cases hk : p.1 == k
    · have hk' : p.1 = k := by simpa using hk
      rw [if_pos hk]
      simp only [List.map_cons, List.mem_cons, hk']
      tauto
    · rw [if_neg hk]
      simp only [List.map_cons, List.mem_cons, ih]
      tauto

theorem keys_nodup_aupsert {β : Type} (d : List (String × β)) (k : String)
    (f : Option β → β) (hnd : (d.map fun p => p.1).Nodup) :
    ((aupsert d k f).map fun p => p.1).Nodup := by
  induction d with
  | nil => simp [aupsert]
  | cons p t ih =>
    simp only [List.map_cons, List.nodup_cons] at hnd
    simp only [aupsert]
    by_cases hk : p.1 == k
    · rw [if_pos hk]
      simp only [List.map_cons, List.nodup_cons]
      exact ⟨hnd.1, hnd.2⟩
    · rw [if_neg hk]
      simp only [List.map_cons, List.nodup_cons]
      refine ⟨?_, ih hnd.2⟩
      rw [mem_keys_aupsert]
      rintro (hmem | rfl)
      · exact hnd.1 hmem
      · exact absurd (by simp) hk

theorem keys_mem_iff_isSome {β : Type} (d : List (String × β)) (t : String) :
    t ∈ d.map (fun p => p.1) ↔ (alookup d t).isSome = true := by
  induction d with
  | nil => simp [alookup]
  | cons p l ih =>
    simp only [List.map_cons, List.mem_cons, alookup]
    by_cases hk : p.1 == t
    · rw [if_pos hk]
      simp only [Option.isSome_some, iff_true]
      left
      exact (by simpa using hk : p.1 = t).symm
    · rw [if_neg hk]
      rw [← ih]
      constructor
      · rintro (rfl | hm)
        · exact absurd (by simp) hk
        · exact hm
      · exact fun hm => Or.inr hm

/-- Lookup of a title in an optional title-keyed dict (`None` behaves
like the empty dict). -/
def klook (o : Option (List (String × NewsItem))) (t : String) :
    Option NewsItem :=
  alookup (o.getD []) t

/-- Abstract view of one platform's inner loop: the title dict grown
item by item, skipping items whose title is in `hs`. -/
def innerLookupFold (hs : List String) :
    Option (List (String × NewsItem)) → List NewsItem →
    Option (List (String × NewsItem))
  | o, [] => o
  | o, it :: rest =>
    if hs.contains it.title then innerLookupFold hs o rest
    else innerLookupFold hs (some (aupsert (o.getD []) it.title fun _ => it)) rest

theorem alookup_innerStep_ne (hs : List String) (sid j : String)
    (hne : j ≠ sid) (l : List NewsItem) :
    ∀ nt, alookup (l.foldl (newTitlesInnerStep hs sid) nt) j = alookup nt j := by
  induction l with
  | nil => intro nt; rfl
  | cons it rest ih =>
    intro nt
    simp only [List.foldl_cons, newTitlesInnerStep]
    by_cases hc : hs.contains it.title
    · rw [if_pos hc]
      exact ih nt
    · rw [if_neg hc, ih, alookup_aupsert_ne _ hne]

theorem alookup_innerStep_self (hs : List String) (sid : String)
    (l : List NewsItem) :
    ∀ nt, alookup (l.foldl (newTitlesInnerStep hs sid) nt) sid =
      innerLookupFold hs (alookup nt sid) l := by
  induction l with
  | nil => intro nt; rfl
  | cons it rest ih =>
    intro nt
    simp only [List.foldl_cons, newTitlesInnerStep, innerLookupFold]
    by_cases hc : hs.contains it.title
    · rw [if_pos hc, if_pos hc]
      exact ih nt
    · rw [if_neg hc, if_neg hc, ih, alookup_aupsert_self]

theorem klook_innerLookupFold_isSome (hs : List String) (t : String)
    (l : List NewsItem) :
    ∀ o, (klook (innerLookupFold hs o l) t).isSome = true ↔
      ((klook o t).isSome = true ∨
        ∃ it ∈ l, it.title = t ∧ hs.contains t = false) := by
  induction l with
  | nil =>
    intro o
    simp [innerLookupFold]
  | cons it rest ih =>
    intro o
    simp only [innerLookupFold]
    by_cases hc : hs.contains it.title
    · rw [if_pos hc, ih]
      constructor
      · rintro (h | ⟨q, hq, hqt, hqc⟩)
        · exact Or.inl h
        · exact Or.inr ⟨q, List.mem_cons_of_mem _ hq, hqt, hqc⟩
      · rintro (h | ⟨q, hq, hqt, hqc⟩)
        · exact Or.inl h
        · rcases List.mem_cons.mp hq with rfl | hq'
          · rw [hqt] at hc
            rw [hc] at hqc
            exact absurd hqc (by simp)
          · exact Or.inr ⟨q, hq', hqt, hqc⟩
    · rw [if_neg hc, ih]
      have hk : klook (some (aupsert (o.getD []) it.title fun _ => it)) t =
          if t = it.title then some it else klook o t := by
        unfold klook
        simp only [Option.getD_some]
        rw [alookup_aupsert]
      rw [hk]
      by_cases ht : t = it.title
      · rw [if_pos ht]
        constructor
        · intro _
          refine Or.inr ⟨it, List.mem_cons_self _ _, ht.symm, ?_⟩
          rw [ht]
          simpa using hc
        · intro _
          left
          rfl
      · rw [if_neg ht]
        constructor
        · rintro (h | ⟨q, hq, hqt, hqc⟩)
          · exact Or.inl h
          · exact Or.inr ⟨q, List.mem_cons_of_mem _ hq, hqt, hqc⟩
        · rintro (h | ⟨q, hq, hqt, hqc⟩)
          · exact Or.inl h
          · rcases List.mem_cons.mp hq with rfl | hq'
            · exact absurd hqt.symm ht
            · exact Or.inr ⟨q, hq', hqt, hqc⟩

theorem klook_innerLookupFold_sound (hs : List String) (t : String)
    (l : List NewsItem) :
    ∀ o v, klook (innerLookupFold hs o l) t = some v →
      klook o t = some v ∨ (v ∈ l ∧ v.title = t) := by
  induction l with
  | nil => intro o v h; exact Or.inl h
  | cons it rest ih =>
    intro o v h
    simp only [innerLookupFold] at h
    by_cases hc : hs.contains it.title
    · rw [if_pos hc] at h
      rcases ih o v h with h' | ⟨hm, hv⟩
      · exact Or.inl h'
      · exact Or.inr ⟨List.mem_cons_of_mem _ hm, hv⟩
    · rw [if_neg hc] at h
      rcases ih _ v h with h' | ⟨hm, hv⟩
      · unfold klook at h'
        simp only [Option.getD_some] at h'
        rw [alookup_aupsert] at h'
        by_cases ht : t = it.title
        · rw [if_pos ht] at h'
          have hv : it = v := (Option.some.injEq _ _).mp h'
          exact Or.inr ⟨hv ▸ List.mem_cons_self it rest, hv ▸ ht.symm⟩
        · rw [if_neg ht] at h'
          exact Or.inl h'
      · exact Or.inr ⟨List.mem_cons_of_mem _ hm, hv⟩

theorem alookup_newTitlesFold_of_not_mem (H : List (String × List String)) :
    ∀ (pls : List (String × List NewsItem))
      (nt : List (String × List (String × NewsItem))) (p : String),
    (∀ pl ∈ pls, pl.1 ≠ p) →
    alookup (pls.foldl
        (fun nt pl =>
          pl.2.foldl (newTitlesInnerStep ((alookup H pl.1).getD []) pl.1) nt)
        nt) p = alookup nt p := by
  intro pls
  induction pls with
  | nil => intro nt p _; rfl
  | cons pl rest ih =>
    intro nt p hne
    simp only [List.foldl_cons]
    rw [ih _ p fun q hq => hne q (List.mem_cons_of_mem _ hq)]
    exact alookup_innerStep_ne _ _ p
      (fun hcon => hne pl (List.mem_cons_self _ _) hcon.symm) pl.2 nt

theorem alookup_newTitlesFold_aux (H : List (String × List String)) :
    ∀ (pls : List (String × List NewsItem))
      (nt : List (String × List (String × NewsItem))) (p : String),
    ((pls.map fun pl => pl.1).Nodup) →
    alookup (pls.foldl
        (fun nt pl =>
          pl.2.foldl (newTitlesInnerStep ((alookup H pl.1).getD []) pl.1) nt)
        nt) p =
      (match alookup pls p with
       | some l => innerLookupFold ((alookup H p).getD []) (alookup nt p) l
       | none => alookup nt p) := by
  intro pls
  induction pls with
  | nil => intro nt p _; rfl
  | cons pl rest ih =>
    intro nt p hnd
    simp only [List.map_cons, List.nodup_cons] at hnd
    simp only [List.foldl_cons, alookup]
    by_cases hp : pl.1 == p
    · have hp' : pl.1 = p := by simpa using hp
      rw [if_pos hp]
      have hrest : ∀ q ∈ rest, q.1 ≠ p := by
        intro q hq hcon
        exact hnd.1 (List.mem_map.mpr ⟨q, hq, hcon.trans hp'.symm⟩)
      rw [alookup_newTitlesFold_of_not_mem H rest _ p hrest, ← hp',
        alookup_innerStep_self]
    · rw [if_neg hp]
      rw [ih _ p hnd.2]
      have hnt : alookup (pl.2.foldl
          (newTitlesInnerStep ((alookup H pl.1).getD []) pl.1) nt) p =
          alookup nt p :=
        alookup_innerStep_ne _ _ p (fun hcon => absurd (by simp [hcon]) hp) pl.2 nt
      rw [hnt]

theorem alookup_newTitlesFold (H : List (String × List String))
    (items : List (String × List NewsItem)) (p : String)
    (hnd : (items.map fun pl => pl.1).Nodup) :
    alookup (newTitlesFold H items) p =
      (match alookup items p with
       | some l => innerLookupFold ((alookup H p).getD []) none l
       | none => none) := by
  unfold newTitlesFold
  rw [alookup_newTitlesFold_aux H items [] p hnd]
  rfl

/-- The rank-history map built by the full-day read. -/
def rankMapOf (db : DayStore) : List (Nat × List Nat) :=
  buildRankHistoryMap (insSort histLt
    (db.rank_history.filter fun e =>
      ((insSort rowLt db.news_items).map fun q => q.id).contains e.news_item_id))

/-- The `historical_titles` dict of `detect_new_titles`
(storage/local.py lines 555-561) computed over the full-day read. -/
def histTitlesOf (db : DayStore) (T : String) : List (String × List String) :=
  ((assembleRows db (localItem (rankMapOf db)) (insSort rowLt db.news_items)).1).map
    fun pl =>
      (pl.1,
        (pl.2.filter fun it => strLtB it.first_time.data T.data).map
          fun it => it.title)

theorem get_today_some (db : DayStore) (cd nt : String)
    (h : db.news_items ≠ []) :
    get_today_all_data db cd nt = some
      { date := cd
        crawl_time := (latestCrawlTime db).getD nt
        items := (assembleRows db (localItem (rankMapOf db))
          (insSort rowLt db.news_items)).1
        id_to_name := (assembleRows db (localItem (rankMapOf db))
          (insSort rowLt db.news_items)).2
        failed_ids := failedIdsAllDay db } := by
  unfold get_today_all_data
  rw [if_neg ?_]
  · rfl
  · rw [List.isEmpty_iff]
    intro hcon
    apply h
    have hlen := length_insSort rowLt db.news_items
    rw [hcon] at hlen
    exact List.eq_nil_of_length_eq_zero hlen.symm

theorem keys_nodup_foldl_aupsert {β α : Type} (key : α → String)
    (upd : α → Option β → β) (l : List α) :
    ∀ m : List (String × β), ((m.map fun p => p.1).Nodup) →
    (((l.foldl (fun m a => aupsert m (key a) (upd a)) m).map fun p => p.1).Nodup) := by
  induction l with
  | nil => exact fun m h => h
  | cons a t ih =>
    intro m hm
    simp only [List.foldl_cons]
    exact ih _ (keys_nodup_aupsert m (key a) (upd a) hm)

theorem keys_nodup_assembleRows (db : DayStore)
    (mk : NewsRow → String → NewsItem) (rows : List NewsRow) :
    (((assembleRows db mk rows).1.map fun p => p.1).Nodup) := by
  rw [assembleRows_eq_pair]
  exact keys_nodup_foldl_aupsert (fun r : NewsRow => r.platform_id)
    (fun row o => (o.getD []) ++ [mk row (platformNameOf db row.platform_id)])
    rows [] (by simp)

theorem mem_histSet_iff (db : DayStore) (T p t : String) :
    t ∈ (alookup (histTitlesOf db T) p).getD [] ↔
      ∃ r ∈ db.news_items, r.platform_id = p ∧ r.title = t ∧
        strLtB r.first_crawl_time.data T.data = true := by
  unfold histTitlesOf
  rw [alookup_map_pairvals
    (fun l : List NewsItem =>
      (l.filter fun it => strLtB it.first_time.data T.data).map fun it => it.title)
    ((assembleRows db (localItem (rankMapOf db)) (insSort rowLt db.news_items)).1)
    p]
  rw [alookup_assembleRows]
  by_cases hfe : ((insSort rowLt db.news_items).filter fun r =>
      r.platform_id == p).isEmpty
  · rw [if_pos hfe]
    constructor
    · intro hmem
      exact absurd hmem (List.not_mem_nil t)
    · rintro ⟨r, hr, hp, -, -⟩
      rw [List.isEmpty_iff] at hfe
      have hmem2 : r ∈ (insSort rowLt db.news_items).filter
          fun q => q.platform_id == p := by
        rw [List.mem_filter, mem_insSort]
        exact ⟨hr, by simp [hp]⟩
      rw [hfe] at hmem2
      exact absurd hmem2 (List.not_mem_nil r)
  · rw [if_neg hfe]
    constructor
    · intro hmem
      rcases List.mem_map.mp hmem with ⟨it, hitf, rfl⟩
      rcases List.mem_filter.mp hitf with ⟨hitm, hitlt⟩
      rcases List.mem_map.mp hitm with ⟨r, hrf, rfl⟩
      rcases List.mem_filter.mp hrf with ⟨hrs, hrp⟩
      exact ⟨r, mem_insSort rowLt r db.news_items |>.mp hrs,
        by simpa using hrp, rfl, hitlt⟩
    · rintro ⟨r, hr, hp, ht, hlt⟩
      refine List.mem_map.mpr ⟨localItem (rankMapOf db) r
        (platformNameOf db r.platform_id), ?_, ht⟩
      refine List.mem_filter.mpr ⟨?_, hlt⟩
      refine List.mem_map.mpr ⟨r, ?_, rfl⟩
      refine List.mem_filter.mpr ⟨(mem_insSort rowLt r db.news_items).mpr hr,
        by simp [hp]⟩

theorem histTitles_all_empty_iff (db : DayStore) (T : String) :
    ((histTitlesOf db T).all fun pl => pl.2.isEmpty) = true ↔
      ∀ r ∈ db.news_items, strLtB r.first_crawl_time.data T.data = false := by
  constructor
  · intro hall r hr
    cases hlt : strLtB r.first_crawl_time.data T.data with
    | false => rfl
    | true =>
      exfalso
      have hmem : r.title ∈ (alookup (histTitlesOf db T) r.platform_id).getD [] :=
        (mem_histSet_iff db T r.platform_id r.title).mpr ⟨r, hr, rfl, rfl, hlt⟩
      cases halo : alookup (histTitlesOf db T) r.platform_id with
      | none =>
        rw [halo] at hmem
        exact absurd hmem (List.not_mem_nil _)
      | some s =>
        rw [halo] at hmem
        have hpair := alookup_mem halo
        have hse := List.all_eq_true.mp hall _ hpair
        have hsnil : s = [] := List.isEmpty_iff.mp hse
        rw [hsnil] at hmem
        exact absurd hmem (List.not_mem_nil _)
  · intro hnone
    rw [List.all_eq_true]
    intro pl hpl
    unfold histTitlesOf at hpl
    rcases List.mem_map.mp hpl with ⟨q, hq, rfl⟩
    show ((q.2.filter fun it =>
      strLtB it.first_time.data T.data).map fun it => it.title).isEmpty = true
    rw [List.isEmpty_iff, List.map_eq_nil_iff, List.filter_eq_nil_iff]
    intro it hit
    have halo : alookup
        ((assembleRows db (localItem (rankMapOf db))
          (insSort rowLt db.news_items)).1) q.1 = some q.2 :=
      alookup_of_mem_nodup (keys_nodup_assembleRows db _ _)
        (by exact hq)
    rw [alookup_assembleRows] at halo
    by_cases hfe : ((insSort rowLt db.news_items).filter fun r =>
        r.platform_id == q.1).isEmpty
    · rw [if_pos hfe] at halo
      exact absurd halo (by simp)
    · rw [if_neg hfe] at halo
      have hq2 := (Option.some.injEq _ _).mp halo
      rw [← hq2] at hit
      rcases List.mem_map.mp hit with ⟨rr, hrf, rfl⟩
      rcases List.mem_filter.mp hrf with ⟨hrs, -⟩
      have := hnone rr ((mem_insSort rowLt rr db.news_items).mp hrs)
      simpa using this

theorem newTitles_mem_iff (hs : List String) (l : List NewsItem) (t : String) :
    t ∈ ((innerLookupFold hs none l).getD []).map (fun q => q.1) ↔
      ((∃ it ∈ l, it.title = t) ∧ ¬t ∈ hs) := by
  rw [keys_mem_iff_isSome]
  have hkl : alookup ((innerLookupFold hs none l).getD []) t =
      klook (innerLookupFold hs none l) t := rfl
  rw [hkl, klook_innerLookupFold_isSome]
  constructor
  · rintro (h0 | ⟨it, hit, hti, hcf⟩)
    · exact absurd h0 (by simp [klook, alookup])
    · refine ⟨⟨it, hit, hti⟩, ?_⟩
      intro hmem
      have hct : hs.contains t = true := List.elem_iff.mpr hmem
      rw [hct] at hcf
      exact absurd hcf (by simp)
  · rintro ⟨⟨it, hit, hti⟩, hnm⟩
    right
    refine ⟨it, hit, hti, ?_⟩
    cases hc : hs.contains t with
    | false => rfl
    | true => exact absurd (List.elem_iff.mp hc) hnm

theorem newTitles_sound (hs : List String) (l : List NewsItem) (t : String)
    (v : NewsItem) (h : klook (innerLookupFold hs none l) t = some v) :
    v ∈ l ∧ v.title = t := by
  rcases klook_innerLookupFold_sound hs t l none v h with h0 | hv
  · exact absurd h0 (by simp [klook, alookup])
  · exact hv

/-- Titles of one platform's entry in a detection result. -/
def titlesAt (nt : List (String × List (String × NewsItem))) (p : String) :
    List String :=
  ((alookup nt p).getD []).map fun q => q.1

/-- The current batch's item list of one platform. -/
def currentItemsAt (current : NewsData) (p : String) : List NewsItem :=
  (alookup current.items p).getD []

/-- Claim C1: over a non-empty day-store, `detect_new_titles` at crawl
time `T` returns, per platform, exactly the current items whose title
does not occur in any stored row of that platform with
`first_crawl_time < T`; and when every platform's earlier-seen title set
is empty (the first crawl of the day), the result is the empty mapping.
The per-platform iff is at the title level (the result is keyed by
title); the second part of the conclusion shows every returned item is
one of the current batch's items with that title.  `current.items`
carries distinct platform keys (a Python dict). -/
theorem c1_detect_new_titles (db : DayStore) (crawl_date now_time : String)
    (current : NewsData) (hrows : db.news_items ≠ [])
    (hkeys : (current.items.map fun pl => pl.1).Nodup) :
    ((∀ r ∈ db.news_items,
        strLtB r.first_crawl_time.data current.crawl_time.data = false) →
      detect_new_titles db crawl_date now_time current = []) ∧
    ((∃ r ∈ db.news_items,
        strLtB r.first_crawl_time.data current.crawl_time.data = true) →
      ∀ p t,
        (t ∈ titlesAt (detect_new_titles db crawl_date now_time current) p ↔
          ((∃ it ∈ currentItemsAt current p, it.title = t) ∧
           ¬∃ r ∈ db.news_items, r.platform_id = p ∧ r.title = t ∧
             strLtB r.first_crawl_time.data current.crawl_time.data = true)) ∧
        (∀ v,
          klook (alookup (detect_new_titles db crawl_date now_time current) p)
              t = some v →
          v ∈ currentItemsAt current p ∧ v.title = t)) := by
  have hdet_eq : detect_new_titles db crawl_date now_time current =
      (if (histTitlesOf db current.crawl_time).all (fun pl => pl.2.isEmpty)
       then []
       else newTitlesFold (histTitlesOf db current.crawl_time) current.items) := by
    unfold detect_new_titles
    rw [get_today_some db crawl_date now_time hrows]
    rfl
  constructor
  · intro hall
    rw [hdet_eq,
      if_pos ((histTitles_all_empty_iff db current.crawl_time).mpr hall)]
  · intro hex
    have hfalse : ((histTitlesOf db current.crawl_time).all
        fun pl => pl.2.isEmpty) = false := by
      cases hcase : (histTitlesOf db current.crawl_time).all
          fun pl => pl.2.isEmpty with
      | false => rfl
      | true =>
        exfalso
        rcases hex with ⟨r, hr, hlt⟩
        have hcon :=
          (histTitles_all_empty_iff db current.crawl_time).mp hcase r hr
        rw [hlt] at hcon
        exact absurd hcon (by simp)
    intro p t
    rw [hdet_eq, if_neg (by simp [hfalse])]
    unfold titlesAt currentItemsAt
    rw [alookup_newTitlesFold _ _ _ hkeys]
    cases halc : alookup current.items p with
    | none =>
      constructor
      · constructor
        · intro hmem
          exact absurd hmem (by simp)
        · rintro ⟨⟨it, hit, -⟩, -⟩
          exact absurd hit (by simp)
      · intro v hv
        exact absurd hv (by simp [klook, alookup])
    | some l =>
      constructor
      · rw [newTitles_mem_iff]
        constructor
        · rintro ⟨hex2, hnm⟩
          refine ⟨hex2, ?_⟩
          intro hcon
          exact hnm ((mem_histSet_iff db current.crawl_time p t).mpr hcon)
        · rintro ⟨hex2, hne⟩
          refine ⟨hex2, ?_⟩
          intro hcon
          exact hne ((mem_histSet_iff db current.crawl_time p t).mp hcon)
      · intro v hv
        exact newTitles_sound _ l t v hv

/-- A fresh item first seen at "11-00". -/
def exItemN : NewsItem :=
  { exItemA with
    title := "x"
    url := "w"
    rank := 3
    crawl_time := "11-00"
    first_time := "11-00"
    last_time := "11-00" }

/-- An "11-00" batch holding the already-stored title "t" and the fresh
title "x" on platform "p". -/
def exCurN : NewsData :=
  { date := "2025-11-26", crawl_time := "11-00",
    items := [("p", [exItemA, exItemN])], id_to_name := [("p", "P")],
    failed_ids := [] }

theorem c1_detect_new_titles_witness :
    exStore2.news_items ≠ [] ∧
    (exCurN.items.map fun pl => pl.1).Nodup ∧
    "x" ∈ titlesAt (detect_new_titles exStore2 "2025-11-26" "11-00" exCurN) "p" ∧
    ¬"t" ∈ titlesAt (detect_new_titles exStore2 "2025-11-26" "11-00" exCurN) "p" := by
  have h1 : exStore2.news_items ≠ [] := by decide
  have h2 : (exCurN.items.map fun pl => pl.1).Nodup := by decide
  have hmain := c1_detect_new_titles exStore2 "2025-11-26" "11-00" exCurN h1 h2
  have hex : ∃ r ∈ exStore2.news_items,
      strLtB r.first_crawl_time.data exCurN.crawl_time.data = true := by decide
  refine ⟨h1, h2, ?_, ?_⟩
  · exact ((hmain.2 hex "p" "x").1).mpr (by decide)
  · intro hmem
    exact absurd (((hmain.2 hex "p" "t").1).mp hmem) (by decide)
